import Mathlib

/-!
Verification of the `x_make_common_x` utility library.

Each Python module relevant to the claims is shallowly embedded:
pure helpers become Lean functions, file-system and process effects are
modelled by explicit traces of operations over environments supplied as
function arguments, machine integers are `Nat`/`Int`, and fallible code
returns `Except`/`Option`.  Strings are modelled with Lean `String`;
Python's `str.strip`/`str.lower` are modelled on their ASCII behaviour by
`pyStrip`/`pyLower` below, because the library only feeds ASCII status and
identifier strings through them.
-/

/-- pyIsSpace models Python's `str.strip` default character class on ASCII:
space, tab, newline, carriage return, vertical tab and form feed. -/
def pyIsSpace (c : Char) : Bool :=
  c = ' ' || c = '\t' || c = '\n' || c = '\r' || c.toNat = 11 || c.toNat = 12

/-- pyStrip models Python `str.strip()`: drop leading and trailing whitespace. -/
def pyStrip (s : String) : String :=
  String.mk (((s.data.dropWhile pyIsSpace).reverse.dropWhile pyIsSpace).reverse)

/-- pyLowerChar models Python `str.lower` on a single ASCII character. -/
def pyLowerChar (c : Char) : Char :=
  if 'A' ≤ c ∧ c ≤ 'Z' then Char.ofNat (c.toNat + 32) else c

/-- pyLower models Python `str.lower()` (ASCII behaviour). -/
def pyLower (s : String) : String :=
  String.mk (s.data.map pyLowerChar)

/-- lookupA models Python `dict.get`: the value stored under a key in an
insertion-ordered association list. -/
def lookupA {α : Type} : List (String × α) → String → Option α
  | [], _ => none
  | (k', v') :: rest, k => if k' = k then some v' else lookupA rest k

/-- setA models Python `dict.__setitem__`: replace the value of an existing
key in place, otherwise append the binding at the end. -/
def setA {α : Type} : List (String × α) → String → α → List (String × α)
  | [], k, v => [(k, v)]
  | (k', v') :: rest, k, v =>
    if k' = k then (k, v) :: rest else (k', v') :: setA rest k v

theorem lookupA_setA_self {α : Type} (l : List (String × α)) (k : String) (v : α) :
    lookupA (setA l k v) k = some v := by
  induction l with
  | nil => simp [setA, lookupA]
  | cons hd tl ih =>
    obtain ⟨k', v'⟩ := hd
    by_cases h : k' = k
    · simp [setA, lookupA, h]
    · simp [setA, lookupA, h, ih]

theorem lookupA_setA_other {α : Type} (l : List (String × α)) (k k' : String) (v : α)
    (hne : k ≠ k') : lookupA (setA l k v) k' = lookupA l k' := by
  induction l with
  | nil => simp [setA, lookupA, hne]
  | cons hd tl ih =>
    obtain ⟨k0, v0⟩ := hd
    by_cases h : k0 = k
    · subst h
      simp [setA, lookupA, hne]
    · simp [setA, lookupA, h, ih]

namespace PS

/-! Model of `progress_snapshot.py`'s `_atomic_write`.

The surrounding file system and the behaviour of `os.replace` are the
environment: `env attempt` says what the `os.replace` call of a given
attempt number does.  The function is rendered as the trace of file-system
operations it performs together with its outcome. -/

/-- EACCES errno value used by `_atomic_write`'s retry test. -/
def EACCES : Int := 13

/-- EPERM errno value used by `_atomic_write`'s retry test. -/
def EPERM : Int := 1

/-- OsErr models a Python `OSError`: whether it is a `PermissionError`,
its optional Windows `winerror`, and its optional `errno`. -/
structure OsErr where
  isPermission : Bool
  winerror : Option Int
  errnoVal : Option Int
deriving Repr, DecidableEq

/-- ReplaceOutcome is what one `os.replace(tmp_path, path)` call does. -/
inductive ReplaceOutcome where
  | success
  | failure (e : OsErr)
deriving Repr, DecidableEq

/-- isRetryableLockError renders `_atomic_write`'s two `except` guards: a
`PermissionError` is retried when `winerror ∈ {5, 32}` or
`errno ∈ {EACCES, EPERM}`; any other `OSError` is retried only when
`errno ∈ {EACCES, EPERM}`. -/
def isRetryableLockError (e : OsErr) : Bool :=
  if e.isPermission then
    (e.winerror = some 5 ∨ e.winerror = some 32)
      ∨ (e.errnoVal = some EACCES ∨ e.errnoVal = some EPERM)
  else
    e.errnoVal = some EACCES ∨ e.errnoVal = some EPERM

/-- FsOp is one observable file-system operation of the atomic write.
`replaceTmpToTarget ok` is one `os.replace` call and whether it succeeded;
`sleepTenths d` is `time.sleep(0.1 * attempt)` in tenths of a second. -/
inductive FsOp where
  | mkdirParents
  | writeTmp (payload : String)
  | fsyncTmp
  | replaceTmpToTarget (ok : Bool)
  | unlinkTmp
  | sleepTenths (tenths : Nat)
deriving Repr, DecidableEq

/-- AWOutcome is how `_atomic_write` returns: normally, raising a
non-retryable error at once, or raising the last error after exhausting
all attempts. -/
inductive AWOutcome where
  | ok
  | raisedImmediate (e : OsErr)
  | raisedExhausted (e : OsErr)
deriving Repr, DecidableEq

/-- ATOMIC_WRITE_MAX_ATTEMPTS mirrors `_ATOMIC_WRITE_MAX_ATTEMPTS = 5`. -/
def ATOMIC_WRITE_MAX_ATTEMPTS : Nat := 5

/-- replaceFailedDefault mirrors the dead-code fallback
`PermissionError("os.replace repeatedly failed")` raised when `last_error`
is still `None` after the loop. -/
def replaceFailedDefault : OsErr :=
  { isPermission := true, winerror := none, errnoVal := none }

/-- awGo renders the `for attempt in range(1, 6)` loop of `_atomic_write`:
on success stop; on a retryable lock error remember it and sleep
`0.1 * attempt`; on any other `OSError` unlink the temp file and raise at
once; when attempts run out unlink the temp file and raise the last error. -/
def awGo (env : Nat → ReplaceOutcome) :
    List Nat → Option OsErr → List FsOp → List FsOp × AWOutcome
  | [], lastErr, acc =>
    (acc ++ [FsOp.unlinkTmp], AWOutcome.raisedExhausted (lastErr.getD replaceFailedDefault))
  | attempt :: rest, lastErr, acc =>
    match env attempt with
    | ReplaceOutcome.success => (acc ++ [FsOp.replaceTmpToTarget true], AWOutcome.ok)
    | ReplaceOutcome.failure e =>
      if isRetryableLockError e then
        awGo env rest (some e) (acc ++ [FsOp.replaceTmpToTarget false, FsOp.sleepTenths attempt])
      else
        (acc ++ [FsOp.replaceTmpToTarget false, FsOp.unlinkTmp], AWOutcome.raisedImmediate e)

/-- attemptNumbers is `range(1, _ATOMIC_WRITE_MAX_ATTEMPTS + 1)`. -/
def attemptNumbers : List Nat := List.range' 1 ATOMIC_WRITE_MAX_ATTEMPTS

/-- atomicWrite models `_atomic_write(path, payload)`: make the parent
directory, write the payload to the `.tmp` sibling, then run the replace
loop. -/
def atomicWrite (env : Nat → ReplaceOutcome) (payload : String) :
    List FsOp × AWOutcome :=
  awGo env attemptNumbers none [FsOp.mkdirParents, FsOp.writeTmp payload]

/-- FS is the abstract state of the two files the atomic write touches:
the contents of the target path and of its `.tmp` sibling. -/
structure FS where
  target : Option String
  tmp : Option String
deriving Repr, DecidableEq

/-- applyFsOp is the effect of one operation on the two files. -/
def applyFsOp (fs : FS) (op : FsOp) : FS :=
  match op with
  | FsOp.writeTmp p => { fs with tmp := some p }
  | FsOp.replaceTmpToTarget true =>
    match fs.tmp with
    | some p => { target := some p, tmp := none }
    | none => fs
  | FsOp.unlinkTmp => { fs with tmp := none }
  | _ => fs

/-- runFsOps folds a trace of operations over a file-system state. -/
def runFsOps (fs : FS) (ops : List FsOp) : FS := ops.foldl applyFsOp fs

/-- isReplaceCall selects the `os.replace` calls of a trace. -/
def isReplaceCall : FsOp → Bool
  | FsOp.replaceTmpToTarget _ => true
  | _ => false

/-- replaceCalls counts the `os.replace` calls in a trace. -/
def replaceCalls (tr : List FsOp) : Nat := (tr.filter isReplaceCall).length

/-- sleepDurations lists the sleep durations of a trace in order. -/
def sleepDurations (tr : List FsOp) : List Nat :=
  tr.filterMap fun op =>
    match op with
    | FsOp.sleepTenths d => some d
    | _ => none

theorem replaceCalls_append (l l' : List FsOp) :
    replaceCalls (l ++ l') = replaceCalls l + replaceCalls l' := by
  simp [replaceCalls, List.filter_append]

theorem sleepDurations_append (l l' : List FsOp) :
    sleepDurations (l ++ l') = sleepDurations l ++ sleepDurations l' := by
  simp [sleepDurations, List.filterMap_append]

theorem awGo_replaceCalls_le (env : Nat → ReplaceOutcome) :
    ∀ (attempts : List Nat) (lastErr : Option OsErr) (acc : List FsOp),
      replaceCalls (awGo env attempts lastErr acc).1 ≤ replaceCalls acc + attempts.length := by
  intro attempts
  induction attempts with
  | nil =>
    intro lastErr acc
    have h1 : replaceCalls [FsOp.unlinkTmp] = 0 := by
      simp [replaceCalls, isReplaceCall]
    simp only [awGo, List.length_nil]
    rw [replaceCalls_append, h1]
  | cons a rest ih =>
    intro lastErr acc
    have hlen : (a :: rest).length = rest.length + 1 := rfl
    cases h : env a with
    | success =>
      have h1 : replaceCalls [FsOp.replaceTmpToTarget true] = 1 := by
        simp [replaceCalls, isReplaceCall]
      simp only [awGo, h]
      rw [replaceCalls_append, h1]
      omega
    | failure e =>
      by_cases hl : isRetryableLockError e
      · have hrec := ih (some e) (acc ++ [FsOp.replaceTmpToTarget false, FsOp.sleepTenths a])
        rw [replaceCalls_append] at hrec
        have h1 : replaceCalls [FsOp.replaceTmpToTarget false, FsOp.sleepTenths a] = 1 := by
          simp [replaceCalls, isReplaceCall]
        rw [h1] at hrec
        simp only [awGo, h, hl, if_true]
        omega
      · have h1 : replaceCalls [FsOp.replaceTmpToTarget false, FsOp.unlinkTmp] = 1 := by
          simp [replaceCalls, isReplaceCall]
        simp only [awGo, h, hl, if_false, Bool.false_eq_true]
        rw [replaceCalls_append, h1]
        omega

theorem awGo_sleeps (env : Nat → ReplaceOutcome) :
    ∀ (attempts : List Nat) (lastErr : Option OsErr) (acc : List FsOp),
      ∃ n, sleepDurations (awGo env attempts lastErr acc).1
        = sleepDurations acc ++ attempts.take n := by
  intro attempts
  induction attempts with
  | nil =>
    intro lastErr acc
    refine ⟨0, ?_⟩
    simp [awGo, sleepDurations_append, sleepDurations]
  | cons a rest ih =>
    intro lastErr acc
    cases h : env a with
    | success =>
      refine ⟨0, ?_⟩
      simp [awGo, h, sleepDurations_append, sleepDurations]
    | failure e =>
      by_cases hl : isRetryableLockError e
      · obtain ⟨n, hn⟩ := ih (some e) (acc ++ [FsOp.replaceTmpToTarget false, FsOp.sleepTenths a])
        refine ⟨n + 1, ?_⟩
        simp only [awGo, h, hl, if_true]
        rw [hn, sleepDurations_append]
        have h1 : sleepDurations [FsOp.replaceTmpToTarget false, FsOp.sleepTenths a] = [a] := by
          simp [sleepDurations]
        rw [h1]
        simp [List.take]
      · refine ⟨0, ?_⟩
        simp only [awGo, h, hl, if_false, Bool.false_eq_true]
        simp [sleepDurations_append, sleepDurations]

theorem awGo_immediate (env : Nat → ReplaceOutcome) :
    ∀ (attempts : List Nat) (lastErr : Option OsErr) (acc : List FsOp) (e : OsErr),
      (awGo env attempts lastErr acc).2 = AWOutcome.raisedImmediate e →
      isRetryableLockError e = false
        ∧ ((awGo env attempts lastErr acc).1).getLast? = some FsOp.unlinkTmp := by
  intro attempts
  induction attempts with
  | nil =>
    intro lastErr acc e h
    simp [awGo] at h
  | cons a rest ih =>
    intro lastErr acc e h
    cases ha : env a with
    | success => simp [awGo, ha] at h
    | failure e' =>
      by_cases hl : isRetryableLockError e'
      · simp only [awGo, ha, hl, if_true] at h ⊢
        exact ih (some e') _ e h
      · simp only [awGo, ha, hl, if_false, Bool.false_eq_true] at h ⊢
        obtain rfl : e' = e := by
          cases h
          rfl
        refine ⟨by simpa using hl, ?_⟩
        simp [List.getLast?_append]

theorem awGo_exhausted (env : Nat → ReplaceOutcome) :
    ∀ (attempts : List Nat) (lastErr : Option OsErr) (acc : List FsOp) (e : OsErr),
      (awGo env attempts lastErr acc).2 = AWOutcome.raisedExhausted e →
      ((awGo env attempts lastErr acc).1).getLast? = some FsOp.unlinkTmp
        ∧ replaceCalls (awGo env attempts lastErr acc).1 = replaceCalls acc + attempts.length
        ∧ ((∃ a, attempts.getLast? = some a ∧ env a = ReplaceOutcome.failure e
              ∧ isRetryableLockError e = true)
           ∨ (attempts = [] ∧ (lastErr = some e ∨ (lastErr = none ∧ e = replaceFailedDefault)))) := by
  intro attempts
  induction attempts with
  | nil =>
    intro lastErr acc e h
    have hd : lastErr.getD replaceFailedDefault = e := by
      simpa [awGo] using h
    refine ⟨?_, ?_, ?_⟩
    · simp [awGo, List.getLast?_append]
    · simp [awGo, replaceCalls_append, replaceCalls, isReplaceCall]
    · right
      refine ⟨rfl, ?_⟩
      cases lastErr with
      | none =>
        right
        exact ⟨rfl, by simpa using hd.symm⟩
      | some x =>
        left
        have hx : x = e := by simpa using hd
        rw [hx]
  | cons a rest ih =>
    intro lastErr acc e h
    cases ha : env a with
    | success => simp [awGo, ha] at h
    | failure e' =>
      by_cases hl : isRetryableLockError e'
      · simp only [awGo, ha, hl, if_true] at h ⊢
        obtain ⟨h1, h2, h3⟩ := ih (some e') (acc ++ [FsOp.replaceTmpToTarget false, FsOp.sleepTenths a]) e h
        refine ⟨h1, ?_, ?_⟩
        · rw [h2, replaceCalls_append]
          have hr : replaceCalls [FsOp.replaceTmpToTarget false, FsOp.sleepTenths a] = 1 := by
            simp [replaceCalls, isReplaceCall]
          rw [hr]
          simp
          omega
        · rcases h3 with ⟨b, hb1, hb2, hb3⟩ | ⟨hrest, hc⟩
          · left
            refine ⟨b, ?_, hb2, hb3⟩
            cases rest with
            | nil => simp at hb1
            | cons r rs => simpa [List.getLast?_cons_cons] using hb1
          · subst hrest
            rcases hc with hc | ⟨hc, _⟩
            · left
              obtain rfl : e' = e := by
                cases hc
                rfl
              exact ⟨a, rfl, ha, by simpa using hl⟩
            · simp at hc
      · simp only [awGo, ha, hl, if_false, Bool.false_eq_true] at h
        simp at h

theorem runFsOps_append (fs : FS) (l l' : List FsOp) :
    runFsOps fs (l ++ l') = runFsOps (runFsOps fs l) l' := by
  simp [runFsOps, List.foldl_append]

theorem awGo_ok_run (env : Nat → ReplaceOutcome) (payload : String) :
    ∀ (attempts : List Nat) (lastErr : Option OsErr) (acc : List FsOp) (fs : FS),
      (runFsOps fs acc).tmp = some payload →
      (awGo env attempts lastErr acc).2 = AWOutcome.ok →
      runFsOps fs (awGo env attempts lastErr acc).1 = ⟨some payload, none⟩ := by
  intro attempts
  induction attempts with
  | nil =>
    intro lastErr acc fs _ h
    simp [awGo] at h
  | cons a rest ih =>
    intro lastErr acc fs htmp h
    cases ha : env a with
    | success =>
      simp only [awGo, ha]
      rw [runFsOps_append]
      show applyFsOp (runFsOps fs acc) (FsOp.replaceTmpToTarget true) = _
      simp only [applyFsOp]
      rw [htmp]
    | failure e' =>
      by_cases hl : isRetryableLockError e'
      · simp only [awGo, ha, hl, if_true] at h ⊢
        refine ih (some e') _ fs ?_ h
        rw [runFsOps_append]
        have : runFsOps (runFsOps fs acc) [FsOp.replaceTmpToTarget false, FsOp.sleepTenths a]
            = runFsOps fs acc := by
          simp [runFsOps, applyFsOp]
        rw [this]
        exact htmp
      · simp [awGo, ha, hl] at h

end PS

namespace SP

/-- atomicWriteTrace models `stage_progress.py`'s simpler `_atomic_write`:
make the parent directory, write the payload to the `.tmp` sibling, rename
over the target — with no retry loop and no fsync. -/
def atomicWriteTrace (payload : String) : List PS.FsOp :=
  [PS.FsOp.mkdirParents, PS.FsOp.writeTmp payload, PS.FsOp.replaceTmpToTarget true]

end SP

/-- C1: in `write_progress_snapshot`'s file replacement (`_atomic_write`),
`os.replace` is attempted at most `_ATOMIC_WRITE_MAX_ATTEMPTS = 5` times
with strictly increasing sleeps between attempts; a non-retryable `OSError`
(neither EACCES/EPERM nor winerror 5/32) removes the temp file and raises
at once; and when all 5 attempts fail with lock errors the temp file is
removed and the 5th attempt's lock error is raised. -/
theorem C1_atomic_write_retry (env : Nat → PS.ReplaceOutcome) (payload : String) :
    PS.replaceCalls (PS.atomicWrite env payload).1 ≤ PS.ATOMIC_WRITE_MAX_ATTEMPTS
    ∧ (PS.sleepDurations (PS.atomicWrite env payload).1).Chain' (· < ·)
    ∧ (∀ e, (PS.atomicWrite env payload).2 = PS.AWOutcome.raisedImmediate e →
        PS.isRetryableLockError e = false
          ∧ ((PS.atomicWrite env payload).1).getLast? = some PS.FsOp.unlinkTmp)
    ∧ (∀ e, (PS.atomicWrite env payload).2 = PS.AWOutcome.raisedExhausted e →
        PS.replaceCalls (PS.atomicWrite env payload).1 = PS.ATOMIC_WRITE_MAX_ATTEMPTS
          ∧ env PS.ATOMIC_WRITE_MAX_ATTEMPTS = PS.ReplaceOutcome.failure e
          ∧ PS.isRetryableLockError e = true
          ∧ ((PS.atomicWrite env payload).1).getLast? = some PS.FsOp.unlinkTmp) := by
  refine ⟨?_, ?_, ?_, ?_⟩
  · have := PS.awGo_replaceCalls_le env PS.attemptNumbers none
      [PS.FsOp.mkdirParents, PS.FsOp.writeTmp payload]
    have h0 : PS.replaceCalls [PS.FsOp.mkdirParents, PS.FsOp.writeTmp payload] = 0 := by
      simp [PS.replaceCalls, PS.isReplaceCall]
    have hlen : PS.attemptNumbers.length = PS.ATOMIC_WRITE_MAX_ATTEMPTS := by decide
    rw [h0, hlen] at this
    simpa [PS.atomicWrite] using this
  · obtain ⟨n, hn⟩ := PS.awGo_sleeps env PS.attemptNumbers none
      [PS.FsOp.mkdirParents, PS.FsOp.writeTmp payload]
    have h0 : PS.sleepDurations [PS.FsOp.mkdirParents, PS.FsOp.writeTmp payload] = [] := by
      simp [PS.sleepDurations]
    rw [h0] at hn
    have hval : PS.attemptNumbers = [1, 2, 3, 4, 5] := rfl
    have hall : (PS.attemptNumbers).Chain' (· < ·) := by
      rw [hval]
      norm_num [List.chain'_cons]
    have hsub : (PS.attemptNumbers.take n).Sublist PS.attemptNumbers := List.take_sublist n _
    have : (PS.attemptNumbers.take n).Chain' (· < ·) := hall.sublist hsub
    simpa [PS.atomicWrite, hn] using this
  · intro e he
    exact PS.awGo_immediate env PS.attemptNumbers none
      [PS.FsOp.mkdirParents, PS.FsOp.writeTmp payload] e he
  · intro e he
    obtain ⟨h1, h2, h3⟩ := PS.awGo_exhausted env PS.attemptNumbers none
      [PS.FsOp.mkdirParents, PS.FsOp.writeTmp payload] e he
    have h0 : PS.replaceCalls [PS.FsOp.mkdirParents, PS.FsOp.writeTmp payload] = 0 := by
      simp [PS.replaceCalls, PS.isReplaceCall]
    have hlen : PS.attemptNumbers.length = PS.ATOMIC_WRITE_MAX_ATTEMPTS := by decide
    rcases h3 with ⟨a, hb1, hb2, hb3⟩ | ⟨hnil, _⟩
    · have ha5 : a = PS.ATOMIC_WRITE_MAX_ATTEMPTS := by
        have hg : PS.attemptNumbers.getLast? = some PS.ATOMIC_WRITE_MAX_ATTEMPTS := by decide
        rw [hg] at hb1
        cases hb1
        rfl
      subst ha5
      refine ⟨?_, hb2, hb3, by simpa [PS.atomicWrite] using h1⟩
      show PS.replaceCalls (PS.awGo env PS.attemptNumbers none
        [PS.FsOp.mkdirParents, PS.FsOp.writeTmp payload]).1 = PS.ATOMIC_WRITE_MAX_ATTEMPTS
      rw [h2, h0, hlen]
      omega
    · have hne : PS.attemptNumbers ≠ [] := by decide
      exact absurd hnil hne

/-- C2 counterexample: the atomic write never fsyncs the temporary file —
on a run where the first `os.replace` succeeds (and likewise in
`stage_progress.py`'s `_atomic_write`), the trace contains no fsync. -/
theorem C2_no_fsync_counterexample :
    PS.FsOp.fsyncTmp ∉ (PS.atomicWrite (fun _ => PS.ReplaceOutcome.success) "payload").1
    ∧ PS.FsOp.fsyncTmp ∉ SP.atomicWriteTrace "payload" := by
  constructor
  · simp [PS.atomicWrite, PS.attemptNumbers, PS.ATOMIC_WRITE_MAX_ATTEMPTS, PS.awGo,
      List.range']
  · simp [SP.atomicWriteTrace]

/-- C2 (amended: no fsync is issued): the atomic-write primitive writes the
serialized payload to a temporary path and renames it into place, so after
a successful write the target file contains exactly the payload and no
temporary file remains; likewise for `stage_progress.py`'s variant. -/
theorem C2_atomic_write_target_contents (env : Nat → PS.ReplaceOutcome)
    (payload : String) (fs0 : PS.FS) :
    ((PS.atomicWrite env payload).2 = PS.AWOutcome.ok →
        PS.runFsOps fs0 (PS.atomicWrite env payload).1 = ⟨some payload, none⟩)
    ∧ PS.runFsOps fs0 (SP.atomicWriteTrace payload) = ⟨some payload, none⟩ := by
  constructor
  · intro h
    refine PS.awGo_ok_run env payload PS.attemptNumbers none
      [PS.FsOp.mkdirParents, PS.FsOp.writeTmp payload] fs0 ?_ h
    simp [PS.runFsOps, PS.applyFsOp]
  · simp [SP.atomicWriteTrace, PS.runFsOps, PS.applyFsOp]

namespace Subproc

/-! Model of `x_subprocess_utils_x.py`.

The spawned process is the environment: `spawn argv` is the
`subprocess.run(argv, capture_output=True, text=True, check=False, env=...)`
result for a given argv.  Logging and the test-mode echo do not affect the
result and are not modelled. -/

/-- CompletedProcess models the fields of `subprocess.CompletedProcess`
that `run_command` reads. -/
structure CompletedProcess where
  returncode : Int
  stdout : String
  stderr : String
deriving Repr, DecidableEq

/-- CommandError models the typed error raised on non-zero exit, with the
attributes the constructor stores. -/
structure CommandError where
  argv : List String
  returncode : Int
  stdout : String
  stderr : String
deriving Repr, DecidableEq

/-- RunTrace is a `run_command` call's result together with the argv of
every process it spawned. -/
structure RunTrace where
  result : Except CommandError CompletedProcess
  spawned : List (List String)

/-- run_command models `run_command(args, check=check)`: spawn the command
once, and when `check` holds and the exit code is non-zero raise
`CommandError` carrying argv, exit code and the captured output. -/
def run_command (spawn : List String → CompletedProcess)
    (args : List String) (check : Bool) : RunTrace :=
  let argv := args
  let completed := spawn argv
  if check ∧ completed.returncode ≠ 0 then
    { result := Except.error
        { argv := argv, returncode := completed.returncode,
          stdout := completed.stdout, stderr := completed.stderr },
      spawned := [argv] }
  else
    { result := Except.ok completed, spawned := [argv] }

end Subproc

/-- C3: with `check=True`, `run_command` raises `CommandError` exactly when
the spawned command exits non-zero, and the error carries the argv, exit
code and captured stdout/stderr; with `check=False` it returns the
completed process unchanged; in both cases exactly one process is spawned. -/
theorem C3_run_command_check (spawn : List String → Subproc.CompletedProcess)
    (args : List String) (check : Bool) :
    ((Subproc.run_command spawn args true).result = Except.error
        { argv := args, returncode := (spawn args).returncode,
          stdout := (spawn args).stdout, stderr := (spawn args).stderr }
      ↔ (spawn args).returncode ≠ 0)
    ∧ ((spawn args).returncode = 0 →
        (Subproc.run_command spawn args true).result = Except.ok (spawn args))
    ∧ (Subproc.run_command spawn args false).result = Except.ok (spawn args)
    ∧ (Subproc.run_command spawn args check).spawned = [args] := by
  refine ⟨⟨?_, ?_⟩, ?_, ?_, ?_⟩
  · intro h hzero
    simp [Subproc.run_command, hzero] at h
  · intro h
    simp [Subproc.run_command, h]
  · intro h
    simp [Subproc.run_command, h]
  · simp [Subproc.run_command]
  · by_cases h : (spawn args).returncode = 0 <;>
      simp [Subproc.run_command, h] <;>
      split <;> simp

namespace Http

/-! Model of `x_http_client_x.py`'s `HttpClient.request`.

The underlying `httpx` client call is the environment: it either raises a
transport-level `httpx.HTTPError` or yields a response with a status code,
a body text and a JSON parse outcome (`none` when `response.json()` raises
`ValueError`).  `J` abstracts parsed JSON values. -/

/-- HttpxResponse models the response fields `request` reads. -/
structure HttpxResponse (J : Type) where
  status_code : Int
  text : String
  jsonParsed : Option J

/-- TransportResult is what the underlying `httpx` client call does. -/
inductive TransportResult (J : Type) where
  | raised (msg : String)
  | responded (r : HttpxResponse J)

/-- HttpResponse models the dataclass returned on success. -/
structure HttpResponse (J : Type) where
  status_code : Int
  text : String
  json : Option J

/-- HttpError is the single error type used to signal HTTP failure; the
constructors record which code path built the message. -/
inductive HttpError where
  | transportError (msg : String)
  | statusError (code : Int) (body : String)
deriving Repr, DecidableEq

/-- ERROR_THRESHOLD mirrors `HttpClient._ERROR_THRESHOLD = 400`. -/
def ERROR_THRESHOLD : Int := 400

/-- request models `HttpClient.request`: wrap a transport error in
`HttpError`; raise `HttpError` when the status code is at or above the
threshold and not allowed; otherwise return the response triple with the
parsed JSON (or `none` when the body was not valid JSON). -/
def request {J : Type} (outcome : TransportResult J)
    (allowed_status_codes : List Int) : Except HttpError (HttpResponse J) :=
  match outcome with
  | TransportResult.raised msg => Except.error (HttpError.transportError msg)
  | TransportResult.responded resp =>
    if ERROR_THRESHOLD ≤ resp.status_code ∧ resp.status_code ∉ allowed_status_codes then
      Except.error (HttpError.statusError resp.status_code (pyStrip resp.text))
    else
      Except.ok { status_code := resp.status_code, text := resp.text, json := resp.jsonParsed }

end Http

/-- C4: `HttpClient.request` raises `HttpError` exactly when the underlying
client raises a transport-level error or the status code is `≥ 400` and
not in `allowed_status_codes`; otherwise it returns an `HttpResponse` with
the status code, body text and parsed JSON (`none` when the body is not
valid JSON).  The `Except HttpError` result type renders that no other
exception type signals HTTP failure. -/
theorem C4_http_request_error_iff {J : Type} (outcome : Http.TransportResult J)
    (allowed : List Int) :
    ((∃ err, Http.request outcome allowed = Except.error err)
      ↔ ((∃ msg, outcome = Http.TransportResult.raised msg)
          ∨ (∃ r, outcome = Http.TransportResult.responded r
              ∧ 400 ≤ r.status_code ∧ r.status_code ∉ allowed)))
    ∧ (∀ r, outcome = Http.TransportResult.responded r →
        (r.status_code < 400 ∨ r.status_code ∈ allowed) →
        Http.request outcome allowed
          = Except.ok { status_code := r.status_code, text := r.text, json := r.jsonParsed }) := by
  constructor
  · constructor
    · intro ⟨err, herr⟩
      cases outcome with
      | raised msg => exact Or.inl ⟨msg, rfl⟩
      | responded r =>
        right
        refine ⟨r, rfl, ?_⟩
        by_cases h : Http.ERROR_THRESHOLD ≤ r.status_code ∧ r.status_code ∉ allowed
        · exact h
        · simp [Http.request, h] at herr
    · intro h
      rcases h with ⟨msg, rfl⟩ | ⟨r, rfl, h1, h2⟩
      · exact ⟨Http.HttpError.transportError msg, rfl⟩
      · refine ⟨Http.HttpError.statusError r.status_code (pyStrip r.text), ?_⟩
        simp [Http.request, Http.ERROR_THRESHOLD, h1, h2]
  · intro r hr hok
    subst hr
    have hcond : ¬(Http.ERROR_THRESHOLD ≤ r.status_code ∧ r.status_code ∉ allowed) := by
      rcases hok with h | h
      · intro ⟨h1, _⟩
        exact absurd h1 (by simp [Http.ERROR_THRESHOLD]; omega)
      · intro ⟨_, h2⟩
        exact h2 h
    simp [Http.request, hcond]

namespace Board

/-! Model of `json_board.py`'s `CardRecord` and the `BoardState.add` /
`BoardState.update` mutations.  `datetime.now(UTC)` is the environment and
is passed in as an abstract timestamp `now`. -/

/-- CardRecord models the card dataclass; timestamps are abstract. -/
structure CardRecord where
  card_id : String
  title : String
  status : String
  created_at : Nat
  updated_at : Nat
  description : Option String
deriving Repr, DecidableEq

/-- BoardState models the in-memory board: an insertion-ordered mapping
from card id to record. -/
structure BoardState where
  cards : List (String × CardRecord)
deriving Repr, DecidableEq

/-- BoardState.add models `add`: raise `ValueError` when the card id is
already present (the board unchanged), otherwise stamp `created_at` and
`updated_at` with the same instant and store the record.  The returned
board is the board after the call, also when the error is raised. -/
def BoardState.add (b : BoardState) (record : CardRecord) (now : Nat) :
    Except String Unit × BoardState :=
  let key := record.card_id
  match lookupA b.cards key with
  | some _ => (Except.error ("card already exists: " ++ key), b)
  | none =>
    let record' := { record with created_at := now, updated_at := now }
    (Except.ok (), { cards := setA b.cards key record' })

/-- BoardState.update models `update`: raise `ValueError` when the card id
is absent, otherwise replace the stored record, carrying over the original
record's `created_at` and stamping `updated_at`. -/
def BoardState.update (b : BoardState) (record : CardRecord) (now : Nat) :
    Except String Unit × BoardState :=
  let key := record.card_id
  match lookupA b.cards key with
  | none => (Except.error ("card not found: " ++ key), b)
  | some original =>
    let record' := { record with created_at := original.created_at, updated_at := now }
    (Except.ok (), { cards := setA b.cards key record' })

end Board

/-- C10: `BoardState.update` on an existing card replaces the stored record
but keeps the original `created_at`, changing only the record contents and
`updated_at`; `BoardState.add` on a present card id raises `ValueError`
and leaves the cards mapping unchanged; a successful `add` stamps
`created_at` and `updated_at` to the same instant. -/
theorem C10_board_add_update (b : Board.BoardState) (record : Board.CardRecord) (now : Nat) :
    (∀ original, lookupA b.cards record.card_id = some original →
      (Board.BoardState.update b record now).1 = Except.ok ()
      ∧ lookupA (Board.BoardState.update b record now).2.cards record.card_id
          = some { record with created_at := original.created_at, updated_at := now }
      ∧ (∀ k, k ≠ record.card_id →
          lookupA (Board.BoardState.update b record now).2.cards k = lookupA b.cards k))
    ∧ (lookupA b.cards record.card_id ≠ none →
        (Board.BoardState.add b record now).1
          = Except.error ("card already exists: " ++ record.card_id)
        ∧ (Board.BoardState.add b record now).2 = b)
    ∧ (lookupA b.cards record.card_id = none →
        (Board.BoardState.add b record now).1 = Except.ok ()
        ∧ lookupA (Board.BoardState.add b record now).2.cards record.card_id
            = some { record with created_at := now, updated_at := now }) := by
  refine ⟨?_, ?_, ?_⟩
  · intro original horig
    refine ⟨?_, ?_, ?_⟩
    · simp [Board.BoardState.update, horig]
    · simp [Board.BoardState.update, horig, lookupA_setA_self]
    · intro k hk
      simp only [Board.BoardState.update, horig]
      exact lookupA_setA_other _ _ _ _ (fun h => hk h.symm)
  · intro hpresent
    cases hcase : lookupA b.cards record.card_id with
    | none => exact absurd hcase hpresent
    | some orig => exact ⟨by simp [Board.BoardState.add, hcase], by simp [Board.BoardState.add, hcase]⟩
  · intro habsent
    exact ⟨by simp [Board.BoardState.add, habsent],
      by simp [Board.BoardState.add, habsent, lookupA_setA_self]⟩

namespace Hash

/-! Executable SHA-1 and SHA-256 over byte lists (`Nat` values < 256), as
used by `stage_progress._safe_repo_filename` (`hashlib.sha1`) and
`ledger.LedgerWriter.append` (`hashlib.sha256`).  Words are `Nat` reduced
mod `2 ^ 32`. -/

/-- w32 truncates to a 32-bit word. -/
def w32 (n : Nat) : Nat := n % 4294967296

/-- rotl32 rotates a 32-bit word left by `k`. -/
def rotl32 (x k : Nat) : Nat := (x % 2 ^ (32 - k)) * 2 ^ k + x / 2 ^ (32 - k)

/-- rotr32 rotates a 32-bit word right by `k`. -/
def rotr32 (x k : Nat) : Nat := x / 2 ^ k + (x % 2 ^ k) * 2 ^ (32 - k)

/-- bnot32 is bitwise complement on 32-bit words. -/
def bnot32 (x : Nat) : Nat := x ^^^ 4294967295

/-- utf8EncodeChar is the UTF-8 encoding of one scalar value, matching
Python `str.encode("utf-8")` on valid text. -/
def utf8EncodeChar (c : Char) : List Nat :=
  let n := c.toNat
  if n < 128 then [n]
  else if n < 2048 then [192 + n / 64, 128 + n % 64]
  else if n < 65536 then [224 + n / 4096, 128 + n / 64 % 64, 128 + n % 64]
  else [240 + n / 262144, 128 + n / 4096 % 64, 128 + n / 64 % 64, 128 + n % 64]

/-- utf8Bytes is the UTF-8 byte sequence of a string. -/
def utf8Bytes (s : String) : List Nat := (s.data.map utf8EncodeChar).flatten

/-- natToBytesBE renders a number as `width` big-endian bytes. -/
def natToBytesBE : Nat → Nat → List Nat
  | 0, _ => []
  | width + 1, n => natToBytesBE width (n / 256) ++ [n % 256]

/-- bytesToWordsBE groups bytes into big-endian 32-bit words. -/
def bytesToWordsBE : List Nat → List Nat
  | b0 :: b1 :: b2 :: b3 :: rest =>
    (((b0 * 256 + b1) * 256 + b2) * 256 + b3) :: bytesToWordsBE rest
  | _ => []

/-- shaPad appends the `0x80` marker, zero padding to 56 mod 64, and the
64-bit big-endian bit length (shared by SHA-1 and SHA-256). -/
def shaPad (msg : List Nat) : List Nat :=
  let zeros := (120 - (msg.length + 1) % 64) % 64
  msg ++ [128] ++ List.replicate zeros 0 ++ natToBytesBE 8 (msg.length * 8)

/-- chunks64 splits a padded message into 64-byte blocks. -/
def chunks64 (l : List Nat) : List (List Nat) :=
  (List.range ((l.length + 63) / 64)).map fun i => (l.drop (64 * i)).take 64

/-- Sha1State is the five-word SHA-1 chaining state. -/
structure Sha1State where
  a : Nat
  b : Nat
  c : Nat
  d : Nat
  e : Nat

/-- sha1F is the SHA-1 round function for round `t`. -/
def sha1F (t b c d : Nat) : Nat :=
  if t < 20 then (b &&& c) ||| (bnot32 b &&& d)
  else if t < 40 then b ^^^ c ^^^ d
  else if t < 60 then (b &&& c) ||| (b &&& d) ||| (c &&& d)
  else b ^^^ c ^^^ d

/-- sha1K is the SHA-1 round constant for round `t`. -/
def sha1K (t : Nat) : Nat :=
  if t < 20 then 1518500249
  else if t < 40 then 1859775393
  else if t < 60 then 2400959708
  else 3395469782

/-- sha1Schedule expands a block into the 80-word message schedule. -/
def sha1Schedule (block : List Nat) : Array Nat :=
  (List.range 64).foldl
    (fun w _ =>
      let t := w.size
      w.push (rotl32 ((w.getD (t - 3) 0) ^^^ (w.getD (t - 8) 0) ^^^ (w.getD (t - 14) 0)
        ^^^ (w.getD (t - 16) 0)) 1))
    (bytesToWordsBE block).toArray

/-- sha1Compress processes one 64-byte block. -/
def sha1Compress (h0 : Sha1State) (block : List Nat) : Sha1State :=
  let w := sha1Schedule block
  let s := (List.range 80).foldl
    (fun s t =>
      let temp := w32 (rotl32 s.a 5 + sha1F t s.b s.c s.d + s.e + sha1K t + w.getD t 0)
      { a := temp, b := s.a, c := rotl32 s.b 30, d := s.c, e := s.d })
    h0
  { a := w32 (h0.a + s.a), b := w32 (h0.b + s.b), c := w32 (h0.c + s.c),
    d := w32 (h0.d + s.d), e := w32 (h0.e + s.e) }

/-- sha1Words is the SHA-1 digest of a byte list as five 32-bit words. -/
def sha1Words (msg : List Nat) : List Nat :=
  let final := (chunks64 (shaPad msg)).foldl sha1Compress
    { a := 1732584193, b := 4023233417, c := 2562383102, d := 271733878, e := 3285377520 }
  [final.a, final.b, final.c, final.d, final.e]

/-- hexDigitChar is the lowercase hex digit of a value below 16. -/
def hexDigitChar (n : Nat) : Char :=
  if n < 10 then Char.ofNat (48 + n) else Char.ofNat (87 + n)

/-- natToHexFixed renders a number as exactly `width` hex digits. -/
def natToHexFixed : Nat → Nat → List Char
  | 0, _ => []
  | width + 1, n => natToHexFixed width (n / 16) ++ [hexDigitChar (n % 16)]

/-- sha1Hex matches Python `hashlib.sha1(...).hexdigest()`. -/
def sha1Hex (msg : List Nat) : String :=
  String.mk (((sha1Words msg).map (natToHexFixed 8)).flatten)

/-- Sha256State is the eight-word SHA-256 chaining state. -/
structure Sha256State where
  a : Nat
  b : Nat
  c : Nat
  d : Nat
  e : Nat
  f : Nat
  g : Nat
  h : Nat

/-- SHA256_K is the table of 64 SHA-256 round constants. -/
def SHA256_K : Array Nat := #[
  1116352408, 1899447441, 3049323471, 3921009573, 961987163,
  1508970993, 2453635748, 2870763221, 3624381080, 310598401,
  607225278, 1426881987, 1925078388, 2162078206, 2614888103,
  3248222580, 3835390401, 4022224774, 264347078, 604807628,
  770255983, 1249150122, 1555081692, 1996064986, 2554220882,
  2821834349, 2952996808, 3210313671, 3336571891, 3584528711,
  113926993, 338241895, 666307205, 773529912, 1294757372,
  1396182291, 1695183700, 1986661051, 2177026350, 2456956037,
  2730485921, 2820302411, 3259730800, 3345764771, 3516065817,
  3600352804, 4094571909, 275423344, 430227734, 506948616,
  659060556, 883997877, 958139571, 1322822218, 1537002063,
  1747873779, 1955562222, 2024104815, 2227730452, 2361852424,
  2428436474, 2756734187, 3204031479, 3329325298]

/-- sha256s0 is the SHA-256 small sigma-0 schedule function. -/
def sha256s0 (x : Nat) : Nat := rotr32 x 7 ^^^ rotr32 x 18 ^^^ x / 8

/-- sha256s1 is the SHA-256 small sigma-1 schedule function. -/
def sha256s1 (x : Nat) : Nat := rotr32 x 17 ^^^ rotr32 x 19 ^^^ x / 1024

/-- sha256Schedule expands a block into the 64-word message schedule. -/
def sha256Schedule (block : List Nat) : Array Nat :=
  (List.range 48).foldl
    (fun w _ =>
      let t := w.size
      w.push (w32 ((w.getD (t - 16) 0) + sha256s0 (w.getD (t - 15) 0) + (w.getD (t - 7) 0)
        + sha256s1 (w.getD (t - 2) 0))))
    (bytesToWordsBE block).toArray

/-- sha256Compress processes one 64-byte block. -/
def sha256Compress (st : Sha256State) (block : List Nat) : Sha256State :=
  let w := sha256Schedule block
  let s := (List.range 64).foldl
    (fun s t =>
      let bigS1 := rotr32 s.e 6 ^^^ rotr32 s.e 11 ^^^ rotr32 s.e 25
      let ch := (s.e &&& s.f) ^^^ (bnot32 s.e &&& s.g)
      let temp1 := w32 (s.h + bigS1 + ch + SHA256_K.getD t 0 + w.getD t 0)
      let bigS0 := rotr32 s.a 2 ^^^ rotr32 s.a 13 ^^^ rotr32 s.a 22
      let maj := (s.a &&& s.b) ^^^ (s.a &&& s.c) ^^^ (s.b &&& s.c)
      let temp2 := w32 (bigS0 + maj)
      { a := w32 (temp1 + temp2), b := s.a, c := s.b, d := s.c,
        e := w32 (s.d + temp1), f := s.e, g := s.f, h := s.g })
    st
  { a := w32 (st.a + s.a), b := w32 (st.b + s.b), c := w32 (st.c + s.c), d := w32 (st.d + s.d),
    e := w32 (st.e + s.e), f := w32 (st.f + s.f), g := w32 (st.g + s.g), h := w32 (st.h + s.h) }

/-- sha256Words is the SHA-256 digest of a byte list as eight 32-bit words. -/
def sha256Words (msg : List Nat) : List Nat :=
  let final := (chunks64 (shaPad msg)).foldl sha256Compress
    { a := 1779033703, b := 3144134277, c := 1013904242, d := 2773480762,
      e := 1359893119, f := 2600822924, g := 528734635, h := 1541459225 }
  [final.a, final.b, final.c, final.d, final.e, final.f, final.g, final.h]

/-- sha256Hex matches Python `hashlib.sha256(...).hexdigest()`. -/
def sha256Hex (msg : List Nat) : String :=
  String.mk (((sha256Words msg).map (natToHexFixed 8)).flatten)

/-- isHexDigitChar recognises lowercase hexadecimal digits. -/
def isHexDigitChar (c : Char) : Bool :=
  ('0' ≤ c ∧ c ≤ '9') ∨ ('a' ≤ c ∧ c ≤ 'f')

theorem natToHexFixed_length : ∀ (width n : Nat), (natToHexFixed width n).length = width
  | 0, _ => rfl
  | width + 1, n => by
    simp [natToHexFixed, natToHexFixed_length width]

theorem hexDigitChar_isHex : ∀ m, m < 16 → isHexDigitChar (hexDigitChar m) = true := by decide

theorem natToHexFixed_all_hex :
    ∀ (width n : Nat) (c : Char), c ∈ natToHexFixed width n → isHexDigitChar c = true := by
  intro width
  induction width with
  | zero =>
    intro n c hc
    simp [natToHexFixed] at hc
  | succ w ih =>
    intro n c hc
    simp only [natToHexFixed, List.mem_append, List.mem_singleton] at hc
    rcases hc with hc | rfl
    · exact ih _ c hc
    · exact hexDigitChar_isHex _ (Nat.mod_lt _ (by norm_num))

theorem sha1Hex_length (msg : List Nat) : (sha1Hex msg).data.length = 40 := by
  simp [sha1Hex, sha1Words, natToHexFixed_length]

theorem sha1Hex_all_hex (msg : List Nat) (c : Char) (hc : c ∈ (sha1Hex msg).data) :
    isHexDigitChar c = true := by
  simp only [sha1Hex] at hc
  rw [List.mem_flatten] at hc
  obtain ⟨l, hl, hcl⟩ := hc
  rw [List.mem_map] at hl
  obtain ⟨wrd, _, rfl⟩ := hl
  exact natToHexFixed_all_hex 8 wrd c hcl

theorem sha256Hex_length (msg : List Nat) : (sha256Hex msg).data.length = 64 := by
  simp [sha256Hex, sha256Words, natToHexFixed_length]

theorem sha256Hex_all_hex (msg : List Nat) (c : Char) (hc : c ∈ (sha256Hex msg).data) :
    isHexDigitChar c = true := by
  simp only [sha256Hex] at hc
  rw [List.mem_flatten] at hc
  obtain ⟨l, hl, hcl⟩ := hc
  rw [List.mem_map] at hl
  obtain ⟨wrd, _, rfl⟩ := hl
  exact natToHexFixed_all_hex 8 wrd c hcl

end Hash

namespace Snap

/-! Model of `progress_snapshot.py`'s `ProgressStage` / `ProgressSnapshot`
mutations.  Timestamps are abstract (`Nat`), metadata values are abstracted
as strings, and the stage dict is an insertion-ordered association list. -/

/-- VALID_STATUSES mirrors `_VALID_STATUSES`. -/
def VALID_STATUSES : List String :=
  ["pending", "running", "attention", "completed", "blocked"]

/-- ProgressStage models the stage dataclass. -/
structure ProgressStage where
  stage_id : String
  title : String
  status : String
  messages : List String
  metadata : List (String × String)
  updated_at : Nat
deriving Repr, DecidableEq

/-- ProgressSnapshot models the snapshot dataclass. -/
structure ProgressSnapshot where
  stages : List (String × ProgressStage)
  created_at : Nat
  updated_at : Nat
  summary : Option String
deriving Repr, DecidableEq

/-- sanitize_messages models `_sanitize_messages`: strip each message and
keep the non-empty ones. -/
def sanitize_messages : List String → List String
  | [] => []
  | m :: rest =>
    let text := pyStrip m
    if text ≠ "" then text :: sanitize_messages rest else sanitize_messages rest

/-- sanitize_metadata models `_sanitize_metadata`: rebuild the mapping
entry by entry (keys already strings in this model, duplicates collapse as
in a Python dict). -/
def sanitize_metadata (metadata : List (String × String)) : List (String × String) :=
  metadata.foldl (fun acc kv => setA acc kv.1 kv.2) []

/-- ensure_stage models `ProgressSnapshot.ensure_stage`: look up the
stripped stage id; create a pending stage when absent (touching the
snapshot's `updated_at`), else refresh the title when a non-empty new
title differs. -/
def ensure_stage (snap : ProgressSnapshot) (stage_id title : String) (now : Nat) :
    ProgressSnapshot × ProgressStage :=
  let normalized_id := pyStrip stage_id
  let normalized_title := pyStrip title
  match lookupA snap.stages normalized_id with
  | none =>
    let stage : ProgressStage :=
      { stage_id := normalized_id, title := normalized_title, status := "pending",
        messages := [], metadata := [], updated_at := now }
    ({ snap with stages := setA snap.stages normalized_id stage, updated_at := now }, stage)
  | some stage =>
    if normalized_title ≠ "" ∧ stage.title ≠ normalized_title then
      let stage' := { stage with title := normalized_title }
      ({ snap with stages := setA snap.stages normalized_id stage' }, stage')
    else (snap, stage)

/-- update_stage models `ProgressSnapshot.update_stage`: statuses outside
`_VALID_STATUSES` become "attention"; the stage's messages and metadata
are replaced by their sanitized forms and both `updated_at` stamps are
refreshed. -/
def update_stage (snap : ProgressSnapshot) (stage_id title status : String)
    (messages : List String) (metadata : List (String × String)) (now : Nat) :
    ProgressSnapshot :=
  let normalized_status := if status ∈ VALID_STATUSES then status else "attention"
  let p := ensure_stage snap stage_id title now
  let stage' := { p.2 with
    status := normalized_status
    messages := sanitize_messages messages
    metadata := sanitize_metadata metadata
    updated_at := now }
  { p.1 with stages := setA p.1.stages (pyStrip stage_id) stage', updated_at := now }

end Snap

namespace SPW

/-! Model of `stage_progress.py`'s `StageProgressWriter`.

Timestamps are abstract (`Nat`); `_json_ready` values are abstracted as
strings; files written through `_atomic_write` are modelled by their
payloads keyed by filename (`detailFiles`) and by the index payload
(`indexFile`), since `_atomic_write` atomically replaces whole files. -/

/-- ALLOWED_STATUSES mirrors `_ALLOWED_STATUSES` (a Python set; listed in
source order). -/
def ALLOWED_STATUSES : List String :=
  ["pending", "running", "completed", "attention", "blocked", "skipped"]

/-- COMPLETION_STATUSES mirrors `_COMPLETION_STATUSES`. -/
def COMPLETION_STATUSES : List String := ["completed", "attention", "blocked", "skipped"]

/-- DETAIL_SCHEMA mirrors `_DETAIL_SCHEMA`. -/
def DETAIL_SCHEMA : String := "x_make.stage_progress.repo/1.0"

/-- INDEX_SCHEMA mirrors `_INDEX_SCHEMA`. -/
def INDEX_SCHEMA : String := "x_make.stage_progress.index/1.0"

/-- MESSAGE_LIMIT mirrors `_MESSAGE_LIMIT`. -/
def MESSAGE_LIMIT : Nat := 10

/-- normalize_status models `_normalize_status`: strip and lower-case,
then map anything outside the allowed set to "attention". -/
def normalize_status (status : String) : String :=
  let candidate := pyLower (pyStrip status)
  if candidate ∈ ALLOWED_STATUSES then candidate else "attention"

/-- sanitizeGo is the loop of `_sanitize_messages`: strip, drop empties
and duplicates, stop at `_MESSAGE_LIMIT` entries. -/
def sanitizeGo : List String → List String → List String → List String
  | [], _, normalized => normalized.reverse
  | m :: rest, seen, normalized =>
    let text := pyStrip m
    if text = "" ∨ text ∈ seen then sanitizeGo rest seen normalized
    else if MESSAGE_LIMIT ≤ normalized.length + 1 then (text :: normalized).reverse
    else sanitizeGo rest (text :: seen) (text :: normalized)

/-- sanitize_messages models `stage_progress._sanitize_messages`. -/
def sanitize_messages (messages : List String) : List String :=
  sanitizeGo messages [] []

/-- jsonReady stands for `_json_ready`; metadata values are abstracted as
already-JSON-compatible strings, on which the coercion is the identity. -/
def jsonReady (v : String) : String := v

/-- collapseSlashesGo renders `re.sub(r"/+", "/", ...)`: drop every slash
that immediately follows another slash. -/
def collapseSlashesGo : Option Char → List Char → List Char
  | _, [] => []
  | prev, c :: rest =>
    if c = '/' ∧ prev = some '/' then collapseSlashesGo prev rest
    else c :: collapseSlashesGo (some c) rest

/-- isFilenameSafeChar is the `[A-Za-z0-9_.-]` character class of
`_safe_repo_filename`. -/
def isFilenameSafeChar (c : Char) : Bool :=
  ('A' ≤ c ∧ c ≤ 'Z') ∨ ('a' ≤ c ∧ c ≤ 'z') ∨ ('0' ≤ c ∧ c ≤ '9')
    ∨ c = '_' ∨ c = '.' ∨ c = '-'

/-- sanitizedRepoName is the cleaned part of `_safe_repo_filename`: strip,
backslashes to slashes, collapse slash runs, slashes to `__`, unsafe
characters to `_`, strip leading/trailing `.` and `_`, defaulting to
"repo". -/
def sanitizedRepoName (repo_id : String) : String :=
  let cleaned0 := (pyStrip repo_id).replace "\\" "/"
  let cs1 := collapseSlashesGo none cleaned0.data
  let cs2 := (cs1.map fun c => if c = '/' then ['_', '_'] else [c]).flatten
  let cs3 := cs2.map fun c => if isFilenameSafeChar c then c else '_'
  let cs4 := ((cs3.dropWhile fun c => c == '.' || c == '_').reverse.dropWhile
      fun c => c == '.' || c == '_').reverse
  if cs4 = [] then "repo" else String.mk cs4

/-- repoDigest8 is the first 8 hex characters of the SHA-1 of the raw
repo id's UTF-8 bytes. -/
def repoDigest8 (repo_id : String) : List Char :=
  ((Hash.sha1Hex (Hash.utf8Bytes repo_id)).data).take 8

/-- safe_repo_filename models `_safe_repo_filename`. -/
def safe_repo_filename (repo_id : String) : String :=
  sanitizedRepoName repo_id ++ "_" ++ String.mk (repoDigest8 repo_id) ++ ".json"

/-- StageProgressEntry models the entry dataclass. -/
structure StageProgressEntry where
  repo_id : String
  display_name : Option String
  status : String
  messages : List String
  metadata : List (String × String)
  started_at : Option Nat
  completed_at : Option Nat
  updated_at : Nat
deriving Repr, DecidableEq

/-- DetailPayload is the JSON object `to_detail_payload` builds (the
content of one entry's detail file). -/
structure DetailPayload where
  schema_version : String
  stage_id : String
  repo_id : String
  display_name : Option String
  status : String
  messages : List String
  metadata : List (String × String)
  started_at : Option Nat
  completed_at : Option Nat
  updated_at : Nat
deriving Repr, DecidableEq

/-- StageProgressEntry.to_detail_payload models `to_detail_payload`. -/
def StageProgressEntry.to_detail_payload (e : StageProgressEntry) (stage_id : String) :
    DetailPayload :=
  { schema_version := DETAIL_SCHEMA, stage_id := stage_id, repo_id := e.repo_id,
    display_name := e.display_name, status := e.status, messages := e.messages,
    metadata := e.metadata, started_at := e.started_at, completed_at := e.completed_at,
    updated_at := e.updated_at }

/-- IndexEntryPayload is one element of the index's `entries` list. -/
structure IndexEntryPayload where
  repo_id : String
  display_name : Option String
  status : String
  detail_path : String
  updated_at : Nat
  started_at : Option Nat
  completed_at : Option Nat
  message_preview : List String
deriving Repr, DecidableEq

/-- StageProgressEntry.to_index_payload models `to_index_payload`. -/
def StageProgressEntry.to_index_payload (e : StageProgressEntry) (detail_path : String) :
    IndexEntryPayload :=
  { repo_id := e.repo_id, display_name := e.display_name, status := e.status,
    detail_path := detail_path, updated_at := e.updated_at, started_at := e.started_at,
    completed_at := e.completed_at, message_preview := e.messages.take 3 }

/-- IndexPayload is the JSON object `_write_index` writes to `index.json`. -/
structure IndexPayload where
  schema_version : String
  stage_id : String
  updated_at : Nat
  entries_dir : String
  total_entries : Nat
  status_counts : List (String × Nat)
  entries : List IndexEntryPayload
deriving Repr, DecidableEq

/-- WriterState is the writer's in-memory state together with the files it
has written (detail files keyed by filename, and the index payload). -/
structure WriterState where
  stage_id : String
  root_dir : String
  entries : List (String × StageProgressEntry)
  entry_files : List (String × String)
  detailFiles : List (String × DetailPayload)
  indexFile : IndexPayload
deriving Repr, DecidableEq

/-- bumpCount is `counts[status] = counts.get(status, 0) + 1`. -/
def bumpCount (counts : List (String × Nat)) (status : String) : List (String × Nat) :=
  match lookupA counts status with
  | some n => setA counts status (n + 1)
  | none => counts ++ [(status, 1)]

/-- status_counts models `_status_counts`: start from zero for every
allowed status, count the entries, and keep only the non-zero counts. -/
def status_counts (entries : List (String × StageProgressEntry)) : List (String × Nat) :=
  let base := ALLOWED_STATUSES.map fun st => (st, 0)
  let counts := entries.foldl (fun acc kv => bumpCount acc kv.2.status) base
  counts.filter fun kv => kv.2 ≠ 0

/-- entryLe is the sort key of `_write_index`: case-insensitive comparison
of repo ids. -/
def entryLe (a b : StageProgressEntry) : Bool :=
  pyLower a.repo_id ≤ pyLower b.repo_id

/-- write_index models `_write_index`: rewrite `index.json` with the
status counts, the entries sorted case-insensitively by repo id, their
detail paths, and `total_entries`. -/
def write_index (s : WriterState) (now : Nat) : WriterState :=
  let counts := status_counts s.entries
  let ordered := (s.entries.map Prod.snd).mergeSort entryLe
  let index_entries := ordered.map fun e =>
    e.to_index_payload ((lookupA s.entry_files e.repo_id).getD "")
  { s with indexFile :=
    { schema_version := INDEX_SCHEMA, stage_id := s.stage_id, updated_at := now,
      entries_dir := s.root_dir, total_entries := ordered.length,
      status_counts := counts, entries := index_entries } }

/-- write_entry models `_write_entry`: record the entry's filename, write
its detail payload there, then rewrite the index. -/
def write_entry (s : WriterState) (e : StageProgressEntry) (now : Nat) : WriterState :=
  let filename := safe_repo_filename e.repo_id
  write_index
    { s with entry_files := setA s.entry_files e.repo_id filename,
             detailFiles := setA s.detailFiles filename (e.to_detail_payload s.stage_id) }
    now

/-- normalizeRepoKey is `repo_id.strip() or "<unknown>"`. -/
def normalizeRepoKey (repo_id : String) : String :=
  if pyStrip repo_id = "" then "<unknown>" else pyStrip repo_id

/-- ensure_entry models `_ensure_entry`: look the normalized key up,
create a pending entry when absent, else refresh a differing non-empty
display name. -/
def ensure_entry (s : WriterState) (repo_id : String) (display_name : Option String)
    (now : Nat) : WriterState × String × StageProgressEntry :=
  let normalized := normalizeRepoKey repo_id
  match lookupA s.entries normalized with
  | none =>
    let e : StageProgressEntry :=
      { repo_id := normalized, display_name := display_name, status := "pending",
        messages := [], metadata := [], started_at := none, completed_at := none,
        updated_at := now }
    ({ s with entries := setA s.entries normalized e }, normalized, e)
  | some e =>
    match display_name with
    | some dn =>
      if dn ≠ "" ∧ e.display_name ≠ some dn then
        let e' := { e with display_name := some dn }
        ({ s with entries := setA s.entries normalized e' }, normalized, e')
      else (s, normalized, e)
    | none => (s, normalized, e)

/-- apply_update is the entry mutation performed by `_update_entry`:
normalize the status, set `started_at` once, set `completed_at` once when
completing, replace or extend the sanitized messages, merge the metadata,
stamp `updated_at`. -/
def apply_update (e : StageProgressEntry) (status : String) (messages : List String)
    (metadata : List (String × String))
    (mark_started mark_completed replace_messages : Bool) (now : Nat) :
    StageProgressEntry :=
  let normalized_status := normalize_status status
  let e1 := if mark_started ∧ e.started_at = none then { e with started_at := some now } else e
  let e2 := if mark_completed ∨ normalized_status ∈ COMPLETION_STATUSES then
      { e1 with completed_at := some (e1.completed_at.getD now) } else e1
  let e3 := { e2 with status := normalized_status }
  let sanitized := sanitize_messages messages
  let e4 :=
    if sanitized ≠ [] then
      (if replace_messages then { e3 with messages := sanitized }
       else { e3 with messages := sanitize_messages (e3.messages ++ sanitized) })
    else if replace_messages then { e3 with messages := [] } else e3
  let e5 :=
    if metadata ≠ [] then
      { e4 with metadata := metadata.foldl (fun acc kv => setA acc kv.1 (jsonReady kv.2)) e4.metadata }
    else e4
  { e5 with updated_at := now }

/-- update_entry models `_update_entry`: mutate the entry under its key
and write it out (the Python code mutates the aliased dict value in
place; here the updated entry is stored back under the same key). -/
def update_entry (s : WriterState) (key : String) (e : StageProgressEntry)
    (status : String) (messages : List String) (metadata : List (String × String))
    (mark_started mark_completed replace_messages : Bool) (now : Nat) : WriterState :=
  let e6 := apply_update e status messages metadata mark_started mark_completed
    replace_messages now
  write_entry { s with entries := setA s.entries key e6 } e6 now

/-- RecordKind enumerates the five `record_*` entry points. -/
inductive RecordKind where
  | pending
  | start
  | success
  | failure
  | skipped
deriving Repr, DecidableEq

/-- record models `record_pending` / `record_start` / `record_success` /
`record_failure` / `record_skipped`, each with the status, fallback
messages and flags of its Python body. -/
def record (k : RecordKind) (s : WriterState) (repo_id : String)
    (display_name : Option String) (metadata : List (String × String))
    (messages : List String) (now : Nat) : WriterState :=
  let t := ensure_entry s repo_id display_name now
  match k with
  | RecordKind.pending =>
    update_entry t.1 t.2.1 t.2.2 "pending" messages metadata false false true now
  | RecordKind.start =>
    update_entry t.1 t.2.1 t.2.2 "running" messages metadata true false false now
  | RecordKind.success =>
    let fallback := if messages = [] then ["Completed successfully."] else messages
    update_entry t.1 t.2.1 t.2.2 "completed" fallback metadata true true false now
  | RecordKind.failure =>
    let fallback := if messages = [] then ["Failed with issues."] else messages
    update_entry t.1 t.2.1 t.2.2 "attention" fallback metadata true true false now
  | RecordKind.skipped =>
    let fallback := if messages = [] then ["Skipped."] else messages
    update_entry t.1 t.2.1 t.2.2 "skipped" fallback metadata false true false now

end SPW

namespace SPW

theorem normalize_status_mem (s : String) : normalize_status s ∈ ALLOWED_STATUSES := by
  show (if pyLower (pyStrip s) ∈ ALLOWED_STATUSES then pyLower (pyStrip s) else "attention")
    ∈ ALLOWED_STATUSES
  by_cases h : pyLower (pyStrip s) ∈ ALLOWED_STATUSES
  · rw [if_pos h]
    exact h
  · rw [if_neg h]
    decide

theorem entryLe_trans : ∀ a b c, entryLe a b = true → entryLe b c = true → entryLe a c = true := by
  intro a b c hab hbc
  simp only [entryLe, decide_eq_true_eq] at hab hbc ⊢
  exact le_trans hab hbc

theorem entryLe_total : ∀ a b, (entryLe a b || entryLe b a) = true := by
  intro a b
  simp only [entryLe, Bool.or_eq_true, decide_eq_true_eq]
  exact le_total _ _

theorem ensure_entry_key (s : WriterState) (repo : String) (display : Option String)
    (now : Nat) : (ensure_entry s repo display now).2.1 = normalizeRepoKey repo := by
  cases h : lookupA s.entries (normalizeRepoKey repo) with
  | none => simp [ensure_entry, h]
  | some e =>
    cases display with
    | none => simp [ensure_entry, h]
    | some dn =>
      by_cases hd : dn ≠ "" ∧ e.display_name ≠ some dn
      · simp [ensure_entry, h, hd]
      · simp [ensure_entry, h, hd]

theorem ensure_entry_frame (s : WriterState) (repo : String) (display : Option String)
    (now : Nat) (key0 : String) (h0 : key0 ≠ normalizeRepoKey repo) :
    lookupA (ensure_entry s repo display now).1.entries key0 = lookupA s.entries key0 := by
  cases h : lookupA s.entries (normalizeRepoKey repo) with
  | none =>
    simp only [ensure_entry, h]
    exact lookupA_setA_other _ _ _ _ (fun hh => h0 hh.symm)
  | some e =>
    cases display with
    | none => simp [ensure_entry, h]
    | some dn =>
      simp only [ensure_entry, h]
      split
      · exact lookupA_setA_other _ _ _ _ (fun hh => h0 hh.symm)
      · rfl

theorem ensure_entry_preserves (s : WriterState) (repo : String) (display : Option String)
    (now : Nat) (e0 : StageProgressEntry)
    (h : lookupA s.entries (normalizeRepoKey repo) = some e0) :
    (ensure_entry s repo display now).2.2.started_at = e0.started_at
    ∧ (ensure_entry s repo display now).2.2.completed_at = e0.completed_at := by
  cases display with
  | none => simp [ensure_entry, h]
  | some dn =>
    by_cases hd : dn ≠ "" ∧ e0.display_name ≠ some dn
    · simp [ensure_entry, h, hd]
    · simp [ensure_entry, h, hd]

theorem ensure_entry_fresh (s : WriterState) (repo : String) (display : Option String)
    (now : Nat) (h : lookupA s.entries (normalizeRepoKey repo) = none) :
    (ensure_entry s repo display now).2.2.started_at = none
    ∧ (ensure_entry s repo display now).2.2.completed_at = none := by
  simp [ensure_entry, h]

theorem apply_update_started (e : StageProgressEntry) (status : String)
    (messages : List String) (metadata : List (String × String))
    (ms mc rm : Bool) (now : Nat) :
    (apply_update e status messages metadata ms mc rm now).started_at
      = if ms ∧ e.started_at = none then some now else e.started_at := by
  simp only [apply_update]
  split_ifs <;> simp

theorem apply_update_completed (e : StageProgressEntry) (status : String)
    (messages : List String) (metadata : List (String × String))
    (ms mc rm : Bool) (now : Nat) :
    (apply_update e status messages metadata ms mc rm now).completed_at
      = if mc ∨ normalize_status status ∈ COMPLETION_STATUSES
        then some (e.completed_at.getD now) else e.completed_at := by
  simp only [apply_update]
  split_ifs <;> simp

theorem apply_update_status (e : StageProgressEntry) (status : String)
    (messages : List String) (metadata : List (String × String))
    (ms mc rm : Bool) (now : Nat) :
    (apply_update e status messages metadata ms mc rm now).status
      = normalize_status status := by
  simp only [apply_update]
  split_ifs <;> simp

theorem update_entry_lookup (s : WriterState) (key : String) (e : StageProgressEntry)
    (status : String) (messages : List String) (metadata : List (String × String))
    (ms mc rm : Bool) (now : Nat) :
    lookupA (update_entry s key e status messages metadata ms mc rm now).entries key
      = some (apply_update e status messages metadata ms mc rm now)
    ∧ lookupA (update_entry s key e status messages metadata ms mc rm now).detailFiles
        (safe_repo_filename (apply_update e status messages metadata ms mc rm now).repo_id)
      = some ((apply_update e status messages metadata ms mc rm now).to_detail_payload
          s.stage_id) := by
  constructor
  · show lookupA (setA s.entries key _) key = _
    exact lookupA_setA_self _ _ _
  · show lookupA (setA s.detailFiles (safe_repo_filename _) _) (safe_repo_filename _) = _
    exact lookupA_setA_self _ _ _

theorem update_entry_frame (s : WriterState) (key : String) (e : StageProgressEntry)
    (status : String) (messages : List String) (metadata : List (String × String))
    (ms mc rm : Bool) (now : Nat) (key0 : String) (h0 : key0 ≠ key) :
    lookupA (update_entry s key e status messages metadata ms mc rm now).entries key0
      = lookupA s.entries key0 := by
  show lookupA (setA s.entries key _) key0 = _
  exact lookupA_setA_other _ _ _ _ (fun hh => h0 hh.symm)

/-- kindStatus is the status literal each `record_*` method passes. -/
def kindStatus : RecordKind → String
  | RecordKind.pending => "pending"
  | RecordKind.start => "running"
  | RecordKind.success => "completed"
  | RecordKind.failure => "attention"
  | RecordKind.skipped => "skipped"

/-- kindMarkStarted is each method's `mark_started` flag. -/
def kindMarkStarted : RecordKind → Bool
  | RecordKind.start | RecordKind.success | RecordKind.failure => true
  | _ => false

/-- kindMarkCompleted is each method's `mark_completed` flag. -/
def kindMarkCompleted : RecordKind → Bool
  | RecordKind.success | RecordKind.failure | RecordKind.skipped => true
  | _ => false

/-- kindReplaceMessages is each method's `replace_messages` flag. -/
def kindReplaceMessages : RecordKind → Bool
  | RecordKind.pending => true
  | _ => false

/-- kindMessages is the (fallback-supplied) message list each method
passes to `_update_entry`. -/
def kindMessages : RecordKind → List String → List String
  | RecordKind.pending, msgs => msgs
  | RecordKind.start, msgs => msgs
  | RecordKind.success, msgs => if msgs = [] then ["Completed successfully."] else msgs
  | RecordKind.failure, msgs => if msgs = [] then ["Failed with issues."] else msgs
  | RecordKind.skipped, msgs => if msgs = [] then ["Skipped."] else msgs

theorem record_eq (k : RecordKind) (s : WriterState) (repo : String)
    (display : Option String) (metadata : List (String × String))
    (messages : List String) (now : Nat) :
    record k s repo display metadata messages now
      = update_entry (ensure_entry s repo display now).1
          (ensure_entry s repo display now).2.1 (ensure_entry s repo display now).2.2
          (kindStatus k) (kindMessages k messages) metadata
          (kindMarkStarted k) (kindMarkCompleted k) (kindReplaceMessages k) now := by
  cases k <;> rfl

theorem record_is_write_index (k : RecordKind) (s : WriterState) (repo : String)
    (display : Option String) (metadata : List (String × String))
    (messages : List String) (now : Nat) :
    ∃ s2, record k s repo display metadata messages now = write_index s2 now
      ∧ s2.entries = (record k s repo display metadata messages now).entries
      ∧ s2.entry_files = (record k s repo display metadata messages now).entry_files := by
  cases k <;> exact ⟨_, rfl, rfl, rfl⟩

theorem record_entry_lookup (k : RecordKind) (s : WriterState) (repo : String)
    (display : Option String) (metadata : List (String × String))
    (messages : List String) (now : Nat) :
    ∃ e, lookupA (record k s repo display metadata messages now).entries
        (normalizeRepoKey repo) = some e
      ∧ lookupA (record k s repo display metadata messages now).detailFiles
          (safe_repo_filename e.repo_id)
          = some (e.to_detail_payload (record k s repo display metadata messages now).stage_id)
      ∧ e.status ∈ ALLOWED_STATUSES := by
  rw [record_eq, ensure_entry_key]
  obtain ⟨h1, h2⟩ := update_entry_lookup (ensure_entry s repo display now).1
    (normalizeRepoKey repo) (ensure_entry s repo display now).2.2
    (kindStatus k) (kindMessages k messages) metadata
    (kindMarkStarted k) (kindMarkCompleted k) (kindReplaceMessages k) now
  refine ⟨_, h1, h2, ?_⟩
  rw [apply_update_status]
  exact normalize_status_mem _

theorem write_index_props (s : WriterState) (now : Nat) :
    (write_index s now).indexFile.total_entries = s.entries.length
    ∧ (write_index s now).indexFile.entries.Perm
        ((s.entries.map Prod.snd).map fun e =>
          e.to_index_payload ((lookupA s.entry_files e.repo_id).getD ""))
    ∧ (write_index s now).indexFile.entries.Pairwise
        (fun a b => pyLower a.repo_id ≤ pyLower b.repo_id)
    ∧ ∀ kv ∈ (write_index s now).indexFile.status_counts, kv.2 ≠ 0 := by
  refine ⟨?_, ?_, ?_, ?_⟩
  · show ((s.entries.map Prod.snd).mergeSort entryLe).length = s.entries.length
    rw [List.length_mergeSort, List.length_map]
  · exact (List.mergeSort_perm (s.entries.map Prod.snd) entryLe).map
      (fun e => e.to_index_payload ((lookupA s.entry_files e.repo_id).getD ""))
  · have hs := List.sorted_mergeSort entryLe_trans entryLe_total (s.entries.map Prod.snd)
    show (((s.entries.map Prod.snd).mergeSort entryLe).map fun e =>
      e.to_index_payload ((lookupA s.entry_files e.repo_id).getD "")).Pairwise
        (fun a b => pyLower a.repo_id ≤ pyLower b.repo_id)
    refine List.Pairwise.map _ ?_ hs
    intro a b hab
    simpa [entryLe, StageProgressEntry.to_index_payload, decide_eq_true_eq] using hab
  · intro kv hkv
    have hm : kv ∈ (s.entries.foldl (fun acc kv2 => bumpCount acc kv2.2.status)
        (ALLOWED_STATUSES.map fun st => (st, 0))).filter (fun kv2 => decide (kv2.2 ≠ 0)) := hkv
    rw [List.mem_filter] at hm
    exact of_decide_eq_true hm.2

end SPW

namespace SPW

theorem apply_update_preserves_started (e : StageProgressEntry) (status : String)
    (messages : List String) (metadata : List (String × String))
    (ms mc rm : Bool) (now : Nat) (t : Nat) (h : e.started_at = some t) :
    (apply_update e status messages metadata ms mc rm now).started_at = some t := by
  rw [apply_update_started]
  simp [h]

theorem apply_update_preserves_completed (e : StageProgressEntry) (status : String)
    (messages : List String) (metadata : List (String × String))
    (ms mc rm : Bool) (now : Nat) (t : Nat) (h : e.completed_at = some t) :
    (apply_update e status messages metadata ms mc rm now).completed_at = some t := by
  rw [apply_update_completed]
  split_ifs <;> simp [h]

theorem apply_update_started_unmarked (e : StageProgressEntry) (status : String)
    (messages : List String) (metadata : List (String × String))
    (mc rm : Bool) (now : Nat) :
    (apply_update e status messages metadata false mc rm now).started_at = e.started_at := by
  rw [apply_update_started]
  simp

theorem apply_update_completed_marked (e : StageProgressEntry) (status : String)
    (messages : List String) (metadata : List (String × String))
    (ms rm : Bool) (now : Nat) :
    (apply_update e status messages metadata ms true rm now).completed_at
      = some (e.completed_at.getD now) := by
  rw [apply_update_completed]
  simp

end SPW

/-- C5: `ProgressSnapshot.update_stage` maps any status outside
`_VALID_STATUSES` to "attention" and the stored stage's status is always a
member of that set; `StageProgressWriter`'s `_normalize_status` strips and
lower-cases a status and maps anything outside its allowed set to
"attention", so after any `record_*` call the stored entry's status is a
member of the writer's allowed set. -/
theorem C5_status_normalization (snap : Snap.ProgressSnapshot)
    (stage_id title status : String) (messages : List String)
    (metadata : List (String × String)) (now : Nat) :
    (∃ st, lookupA (Snap.update_stage snap stage_id title status messages metadata now).stages
        (pyStrip stage_id) = some st
      ∧ st.status = (if status ∈ Snap.VALID_STATUSES then status else "attention")
      ∧ st.status ∈ Snap.VALID_STATUSES)
    ∧ (∀ s2 : String,
        SPW.normalize_status s2
          = (if pyLower (pyStrip s2) ∈ SPW.ALLOWED_STATUSES
             then pyLower (pyStrip s2) else "attention")
        ∧ SPW.normalize_status s2 ∈ SPW.ALLOWED_STATUSES)
    ∧ (∀ (k : SPW.RecordKind) (s : SPW.WriterState) (repo : String)
        (display : Option String) (md : List (String × String))
        (msgs : List String) (n : Nat),
        ∃ e, lookupA (SPW.record k s repo display md msgs n).entries
            (SPW.normalizeRepoKey repo) = some e
          ∧ e.status ∈ SPW.ALLOWED_STATUSES) := by
  refine ⟨?_, ?_, ?_⟩
  · refine ⟨{ (Snap.ensure_stage snap stage_id title now).2 with
        status := if status ∈ Snap.VALID_STATUSES then status else "attention"
        messages := Snap.sanitize_messages messages
        metadata := Snap.sanitize_metadata metadata
        updated_at := now }, ?_, rfl, ?_⟩
    · exact lookupA_setA_self _ _ _
    · show (if status ∈ Snap.VALID_STATUSES then status else "attention") ∈ Snap.VALID_STATUSES
      by_cases h : status ∈ Snap.VALID_STATUSES
      · rw [if_pos h]
        exact h
      · rw [if_neg h]
        decide
  · intro s2
    exact ⟨rfl, SPW.normalize_status_mem s2⟩
  · intro k s repo display md msgs n
    obtain ⟨e, h1, _, h3⟩ := SPW.record_entry_lookup k s repo display md msgs n
    exact ⟨e, h1, h3⟩

/-- C6: after every `record_*` call the on-disk layout is consistent: the
updated entry's detail payload sits under its `_safe_repo_filename` (the
sanitized repo id joined with an 8-hex-character SHA-1 digest), and the
rewritten index lists exactly the tracked entries sorted
case-insensitively by repo id, with `total_entries` the number of entries
and `status_counts` holding only non-zero counts. -/
theorem C6_writer_layout_consistency (k : SPW.RecordKind) (s : SPW.WriterState)
    (repo : String) (display : Option String) (metadata : List (String × String))
    (messages : List String) (now : Nat) :
    (∃ e, lookupA (SPW.record k s repo display metadata messages now).entries
        (SPW.normalizeRepoKey repo) = some e
      ∧ lookupA (SPW.record k s repo display metadata messages now).detailFiles
          (SPW.safe_repo_filename e.repo_id)
          = some (e.to_detail_payload
              (SPW.record k s repo display metadata messages now).stage_id))
    ∧ (∀ r, SPW.safe_repo_filename r
          = SPW.sanitizedRepoName r ++ "_" ++ String.mk (SPW.repoDigest8 r) ++ ".json"
        ∧ (SPW.repoDigest8 r).length = 8
        ∧ (∀ c ∈ SPW.repoDigest8 r, Hash.isHexDigitChar c = true))
    ∧ (SPW.record k s repo display metadata messages now).indexFile.total_entries
        = (SPW.record k s repo display metadata messages now).entries.length
    ∧ (SPW.record k s repo display metadata messages now).indexFile.entries.Perm
        (((SPW.record k s repo display metadata messages now).entries.map Prod.snd).map
          fun e => e.to_index_payload
            ((lookupA (SPW.record k s repo display metadata messages now).entry_files
              e.repo_id).getD ""))
    ∧ (SPW.record k s repo display metadata messages now).indexFile.entries.Pairwise
        (fun a b => pyLower a.repo_id ≤ pyLower b.repo_id)
    ∧ ∀ kv ∈ (SPW.record k s repo display metadata messages now).indexFile.status_counts,
        kv.2 ≠ 0 := by
  obtain ⟨s2, heq, hent, hfiles⟩ :=
    SPW.record_is_write_index k s repo display metadata messages now
  obtain ⟨w1, w2, w3, w4⟩ := SPW.write_index_props s2 now
  refine ⟨?_, ?_, ?_, ?_, ?_, ?_⟩
  · obtain ⟨e, h1, h2, _⟩ := SPW.record_entry_lookup k s repo display metadata messages now
    exact ⟨e, h1, h2⟩
  · intro r
    refine ⟨rfl, ?_, ?_⟩
    · show ((Hash.sha1Hex (Hash.utf8Bytes r)).data.take 8).length = 8
      rw [List.length_take, Hash.sha1Hex_length]
      decide
    · intro c hc
      have hmem : c ∈ (Hash.sha1Hex (Hash.utf8Bytes r)).data := List.mem_of_mem_take hc
      exact Hash.sha1Hex_all_hex _ c hmem
  · rw [heq, w1, hent, heq]
  · rw [heq] at hent hfiles ⊢
    rw [← hent, ← hfiles]
    exact w2
  · rw [heq]
    exact w3
  · rw [heq]
    exact w4

/-- C9: `started_at` and `completed_at` are write-once: an entry's
timestamp, once set, is unchanged by every later `record_*` call; and
`record_skipped` sets `completed_at` while never touching `started_at`
(which stays `none` on a fresh entry). -/
theorem C9_timestamps_write_once (s : SPW.WriterState) (repo : String)
    (display : Option String) (metadata : List (String × String))
    (messages : List String) (now : Nat) :
    (∀ (k : SPW.RecordKind) (key0 : String) (e0 : SPW.StageProgressEntry),
      lookupA s.entries key0 = some e0 →
      ∃ e', lookupA (SPW.record k s repo display metadata messages now).entries key0 = some e'
        ∧ (∀ t, e0.started_at = some t → e'.started_at = some t)
        ∧ (∀ t, e0.completed_at = some t → e'.completed_at = some t)
        ∧ (k = SPW.RecordKind.skipped → e'.started_at = e0.started_at))
    ∧ (lookupA s.entries (SPW.normalizeRepoKey repo) = none →
      ∃ e', lookupA (SPW.record SPW.RecordKind.skipped s repo display metadata
            messages now).entries (SPW.normalizeRepoKey repo) = some e'
        ∧ e'.started_at = none ∧ e'.completed_at = some now) := by
  constructor
  · intro k key0 e0 h0
    by_cases hk : key0 = SPW.normalizeRepoKey repo
    · subst hk
      obtain ⟨hp1, hp2⟩ := SPW.ensure_entry_preserves s repo display now e0 h0
      rw [SPW.record_eq, SPW.ensure_entry_key]
      refine ⟨_, (SPW.update_entry_lookup _ _ _ _ _ _ _ _ _ _).1, ?_, ?_, ?_⟩
      · intro t ht
        exact SPW.apply_update_preserves_started _ _ _ _ _ _ _ _ t (hp1.trans ht)
      · intro t ht
        exact SPW.apply_update_preserves_completed _ _ _ _ _ _ _ _ t (hp2.trans ht)
      · intro hks
        subst hks
        have hms : SPW.kindMarkStarted SPW.RecordKind.skipped = false := rfl
        rw [hms, SPW.apply_update_started_unmarked]
        exact hp1
    · rw [SPW.record_eq, SPW.ensure_entry_key]
      rw [SPW.update_entry_frame _ _ _ _ _ _ _ _ _ _ key0 hk,
        SPW.ensure_entry_frame s repo display now key0 hk]
      exact ⟨e0, h0, fun t ht => ht, fun t ht => ht, fun _ => rfl⟩
  · intro h0
    obtain ⟨hf1, hf2⟩ := SPW.ensure_entry_fresh s repo display now h0
    rw [SPW.record_eq, SPW.ensure_entry_key]
    refine ⟨_, (SPW.update_entry_lookup _ _ _ _ _ _ _ _ _ _).1, ?_, ?_⟩
    · have hms : SPW.kindMarkStarted SPW.RecordKind.skipped = false := rfl
      rw [hms, SPW.apply_update_started_unmarked]
      exact hf1
    · have hmc : SPW.kindMarkCompleted SPW.RecordKind.skipped = true := rfl
      rw [hmc, SPW.apply_update_completed_marked, hf2]
      rfl

/-- JV models a parsed JSON value (Python objects that `json.dumps` can
serialize: None, bool, int, str, list, dict).  Floats are outside the
library's telemetry/ledger payload contracts and are not modelled. -/
inductive JV where
  | null
  | bool (b : Bool)
  | int (n : Int)
  | str (s : String)
  | arr (items : List JV)
  | obj (fields : List (String × JV))

/-- escapeChar renders one character the way `json.dumps` (with its
default `ensure_ascii=True`) escapes string characters. -/
def escapeChar (c : Char) : List Char :=
  if c = '"' then ['\\', '"']
  else if c = '\\' then ['\\', '\\']
  else if c.toNat = 8 then ['\\', 'b']
  else if c.toNat = 9 then ['\\', 't']
  else if c.toNat = 10 then ['\\', 'n']
  else if c.toNat = 12 then ['\\', 'f']
  else if c.toNat = 13 then ['\\', 'r']
  else if c.toNat < 32 ∨ 126 < c.toNat then
    (if c.toNat < 65536 then '\\' :: 'u' :: Hash.natToHexFixed 4 c.toNat
     else ('\\' :: 'u' :: Hash.natToHexFixed 4 (55296 + (c.toNat - 65536) / 1024))
       ++ '\\' :: 'u' :: Hash.natToHexFixed 4 (56320 + (c.toNat - 65536) % 1024))
  else [c]

/-- jsonQuote is `json.dumps` on a string value. -/
def jsonQuote (s : String) : String :=
  String.mk ('"' :: (s.data.map escapeChar).flatten ++ ['"'])

mutual

/-- jdumpVal models Python `json.dumps` on a JSON value, parameterized by
`sort_keys` and the item and key separators.  With `sort_keys` the
members of every object are ordered by key (rendering a member first and
sorting the rendered pairs agrees with sorting keys first, since members
render independently). -/
def jdumpVal (sortKeys : Bool) (itemSep kvSep : String) : JV → String
  | JV.null => "null"
  | JV.bool true => "true"
  | JV.bool false => "false"
  | JV.int n => toString n
  | JV.str s => jsonQuote s
  | JV.arr items =>
    "[" ++ String.intercalate itemSep (jdumpArr sortKeys itemSep kvSep items) ++ "]"
  | JV.obj fields =>
    let rendered := jdumpFields sortKeys itemSep kvSep fields
    let ordered := if sortKeys then rendered.mergeSort (fun a b => a.1 ≤ b.1) else rendered
    "\x7b" ++ String.intercalate itemSep
        (ordered.map fun kv => jsonQuote kv.1 ++ kvSep ++ kv.2) ++ "\x7d"

/-- jdumpArr serializes the elements of a JSON array. -/
def jdumpArr (sortKeys : Bool) (itemSep kvSep : String) : List JV → List String
  | [] => []
  | v :: rest => jdumpVal sortKeys itemSep kvSep v :: jdumpArr sortKeys itemSep kvSep rest

/-- jdumpFields serializes the member values of a JSON object, keeping
their keys. -/
def jdumpFields (sortKeys : Bool) (itemSep kvSep : String) :
    List (String × JV) → List (String × String)
  | [] => []
  | (k, v) :: rest =>
    (k, jdumpVal sortKeys itemSep kvSep v) :: jdumpFields sortKeys itemSep kvSep rest

end

namespace Telemetry

/-! Model of `telemetry.py`'s schema validation.

`validate_event` delegates to the third-party `jsonschema`
Draft 2020-12 validator applied to the `TELEMETRY_SCHEMA` literal of the
source; `schemaValidate` below renders that schema's meaning keyword by
keyword (with `format` an annotation, as `Draft202012Validator` treats it
by default).  Payloads are `JV` objects. -/

/-- SCHEMA_VERSION mirrors the `SCHEMA_VERSION` constant. -/
def SCHEMA_VERSION : String := "0.20.2"

/-- REQUIRED_FIELDS is the schema's `required` list (also exactly the
keys of its `properties`). -/
def REQUIRED_FIELDS : List String :=
  ["version", "timestamp", "source", "phase", "repository", "tool", "status", "attempt",
   "duration_ms", "details"]

/-- SOURCE_ENUM is the `source` property's enum. -/
def SOURCE_ENUM : List String :=
  ["orchestrator", "legatus", "clones", "visitor", "pip_updates", "pypi"]

/-- STATUS_ENUM is the `status` property's enum. -/
def STATUS_ENUM : List String :=
  ["started", "succeeded", "failed", "skipped", "retried", "quarantined"]

/-- isPhaseChar is the `[a-z0-9_]` character class. -/
def isPhaseChar (c : Char) : Bool :=
  ('a' ≤ c ∧ c ≤ 'z') ∨ ('0' ≤ c ∧ c ≤ '9') ∨ c = '_'

/-- phaseMatches renders the anchored pattern `^[a-z0-9_]+$`. -/
def phaseMatches (s : String) : Bool := !s.data.isEmpty && s.data.all isPhaseChar

/-- versionOk: `{"type": "string", "const": SCHEMA_VERSION}`. -/
def versionOk : JV → Bool
  | JV.str s => s = SCHEMA_VERSION
  | _ => false

/-- timestampOk: `{"type": "string", "format": "date-time"}` (`format` not
asserted under Draft 2020-12 defaults). -/
def timestampOk : JV → Bool
  | JV.str _ => true
  | _ => false

/-- sourceOk: `{"type": "string", "enum": [...]}`. -/
def sourceOk : JV → Bool
  | JV.str s => s ∈ SOURCE_ENUM
  | _ => false

/-- phaseOk: `{"type": "string", "pattern": "^[a-z0-9_]+$", "minLength": 1}`. -/
def phaseOk : JV → Bool
  | JV.str s => phaseMatches s && decide (1 ≤ s.data.length)
  | _ => false

/-- phasePatternOk is the claim's reading: phase matches the pattern. -/
def phasePatternOk : JV → Bool
  | JV.str s => phaseMatches s
  | _ => false

/-- nullableStrOk: `{"type": ["string", "null"]}`. -/
def nullableStrOk : JV → Bool
  | JV.str _ => true
  | JV.null => true
  | _ => false

/-- statusOk: `{"type": "string", "enum": [...]}`. -/
def statusOk : JV → Bool
  | JV.str s => s ∈ STATUS_ENUM
  | _ => false

/-- attemptOk: `{"type": "integer", "minimum": 1}`. -/
def attemptOk : JV → Bool
  | JV.int n => 1 ≤ n
  | _ => false

/-- durationOk: `{"type": ["integer", "null"], "minimum": 0}` (`minimum`
constrains only numbers, so null passes). -/
def durationOk : JV → Bool
  | JV.int n => 0 ≤ n
  | JV.null => true
  | _ => false

/-- detailsOk: `{"type": "object", "additionalProperties": true}`. -/
def detailsOk : JV → Bool
  | JV.obj _ => true
  | _ => false

/-- propPresentOk applies a property's subschema when the member is
present (JSON Schema `properties` constrains only present members). -/
def propPresentOk (p : List (String × JV)) (name : String) (check : JV → Bool) : Bool :=
  match lookupA p name with
  | none => true
  | some v => check v

/-- schemaValidate is TELEMETRY_SCHEMA's meaning on an object payload:
`required`, `additionalProperties: false`, and every property subschema,
in the schema's own order. -/
def schemaValidate (p : List (String × JV)) : Bool :=
  REQUIRED_FIELDS.all (fun f => (lookupA p f).isSome)
    && p.all (fun kv => kv.1 ∈ REQUIRED_FIELDS)
    && propPresentOk p "version" versionOk
    && propPresentOk p "timestamp" timestampOk
    && propPresentOk p "source" sourceOk
    && propPresentOk p "phase" phaseOk
    && propPresentOk p "repository" nullableStrOk
    && propPresentOk p "tool" nullableStrOk
    && propPresentOk p "status" statusOk
    && propPresentOk p "attempt" attemptOk
    && propPresentOk p "duration_ms" durationOk
    && propPresentOk p "details" detailsOk

/-- claimFieldOk is a claim-side field condition: the member is present
and satisfies the stated check. -/
def claimFieldOk (p : List (String × JV)) (name : String) (check : JV → Bool) : Bool :=
  match lookupA p name with
  | none => false
  | some v => check v

/-- claimConditions renders claim C7's enumeration: the ten required
fields present with no additional properties, version equal to the schema
version constant, source and status drawn from their enums, phase
matching `^[a-z0-9_]+$`, attempt an integer at least 1, duration_ms an
integer at least 0 or null.  The enumeration places no type constraint on
timestamp, repository, tool or details. -/
def claimConditions (p : List (String × JV)) : Bool :=
  REQUIRED_FIELDS.all (fun f => (lookupA p f).isSome)
    && p.all (fun kv => kv.1 ∈ REQUIRED_FIELDS)
    && claimFieldOk p "version" versionOk
    && claimFieldOk p "source" sourceOk
    && claimFieldOk p "phase" phasePatternOk
    && claimFieldOk p "status" statusOk
    && claimFieldOk p "attempt" attemptOk
    && claimFieldOk p "duration_ms" durationOk

/-- amendedConditions extends the claim's enumeration with the type
constraints the schema also imposes: timestamp a string, repository and
tool each a string or null, details an object. -/
def amendedConditions (p : List (String × JV)) : Bool :=
  claimConditions p
    && claimFieldOk p "timestamp" timestampOk
    && claimFieldOk p "repository" nullableStrOk
    && claimFieldOk p "tool" nullableStrOk
    && claimFieldOk p "details" detailsOk

/-- validate_event models `validate_event`: the third-party validator
raises `ValidationError` exactly on schema-invalid payloads, which the
wrapper converts to `TelemetryValidationError`. -/
def validate_event (p : List (String × JV)) : Except String Unit :=
  if schemaValidate p then Except.ok () else Except.error "Telemetry payload invalid"

/-- coerce_event models `coerce_event`: validate the mapping and return
it unchanged. -/
def coerce_event (q : List (String × JV)) : Except String (List (String × JV)) :=
  match validate_event q with
  | Except.ok _ => Except.ok q
  | Except.error e => Except.error e

/-- optStr renders an optional string argument as its JSON value. -/
def optStr : Option String → JV
  | some s => JV.str s
  | none => JV.null

/-- make_event models `make_event` (with `ensure_timestamp` already
applied, since a string timestamp is returned unchanged): build the
payload dict in source order and validate it via `coerce_event`. -/
def make_event (source phase status : String) (repository tool : Option String)
    (attempt : Int) (duration_ms : Option Int) (details : List (String × JV))
    (timestamp : String) : Except String (List (String × JV)) :=
  let payload : List (String × JV) :=
    [("version", JV.str SCHEMA_VERSION), ("timestamp", JV.str timestamp),
     ("source", JV.str source), ("phase", JV.str phase),
     ("repository", optStr repository), ("tool", optStr tool),
     ("status", JV.str status), ("attempt", JV.int attempt),
     ("duration_ms", match duration_ms with | some n => JV.int n | none => JV.null),
     ("details", JV.obj details)]
  coerce_event payload

/-- loads models `loads` on an already-parsed JSON document: reject
non-objects, then validate via `coerce_event`. -/
def loads (raw : JV) : Except String (List (String × JV)) :=
  match raw with
  | JV.obj fields => coerce_event fields
  | _ => Except.error "Telemetry payload must decode to an object"

/-- dumps models `dumps` with its default `indent=None`: validate the
event via `coerce_event`, then serialize it with sorted keys and the
compact separators `(",", ":")`. -/
def dumps (event : List (String × JV)) : Except String String :=
  match coerce_event event with
  | Except.ok validated => Except.ok (jdumpVal true "," ":" (JV.obj validated))
  | Except.error e => Except.error e

/-- cexPayload satisfies every condition claim C7 lists, yet its integer
timestamp violates the schema. -/
def cexPayload : List (String × JV) :=
  [("version", JV.str "0.20.2"), ("timestamp", JV.int 5),
   ("source", JV.str "orchestrator"), ("phase", JV.str "build"),
   ("repository", JV.null), ("tool", JV.null),
   ("status", JV.str "started"), ("attempt", JV.int 1),
   ("duration_ms", JV.null), ("details", JV.obj [])]

end Telemetry

namespace Telemetry

theorem pp_eq_cf (p : List (String × JV)) (name : String) (check : JV → Bool)
    (h : (lookupA p name).isSome = true) :
    propPresentOk p name check = claimFieldOk p name check := by
  obtain ⟨v, hv⟩ := Option.isSome_iff_exists.mp h
  simp [propPresentOk, claimFieldOk, hv]

theorem cf_congr (p : List (String × JV)) (name : String) (c1 c2 : JV → Bool)
    (h : ∀ v, c1 v = c2 v) : claimFieldOk p name c1 = claimFieldOk p name c2 := by
  unfold claimFieldOk
  cases lookupA p name with
  | none => rfl
  | some v => exact h v

theorem phaseOk_eq_pattern (v : JV) : phaseOk v = phasePatternOk v := by
  cases v with
  | null => rfl
  | bool b => rfl
  | int n => rfl
  | arr items => rfl
  | obj fields => rfl
  | str s =>
    show (phaseMatches s && decide (1 ≤ s.data.length)) = phaseMatches s
    cases hpm : phaseMatches s
    · rfl
    · have hne : s.data.isEmpty = false := by
        simp only [phaseMatches, Bool.and_eq_true] at hpm
        simpa using hpm.1
      have hlen : 1 ≤ s.data.length := by
        cases hd : s.data with
        | nil => rw [hd] at hne; simp at hne
        | cons a l =>
          simp only [List.length_cons]
          omega
      simp only [Bool.true_and, decide_eq_true_eq]
      exact hlen

theorem required_isSome (p : List (String × JV)) (name : String)
    (hmem : name ∈ REQUIRED_FIELDS)
    (hreq : REQUIRED_FIELDS.all (fun f => (lookupA p f).isSome) = true) :
    (lookupA p name).isSome = true :=
  List.all_eq_true.mp hreq name hmem

theorem schemaValidate_iff_amended (p : List (String × JV)) :
    schemaValidate p = true ↔ amendedConditions p = true := by
  unfold schemaValidate amendedConditions claimConditions
  constructor
  · intro h
    simp only [Bool.and_eq_true] at h
    obtain ⟨⟨⟨⟨⟨⟨⟨⟨⟨⟨⟨hreq, hadd⟩, hver⟩, hts⟩, hsrc⟩, hph⟩, hrepo⟩, htool⟩, hst⟩, hatt⟩,
      hdur⟩, hdet⟩ := h
    simp only [Bool.and_eq_true]
    have e1 := pp_eq_cf p "version" versionOk (required_isSome p "version" (by decide) hreq)
    have e2 := pp_eq_cf p "timestamp" timestampOk (required_isSome p "timestamp" (by decide) hreq)
    have e3 := pp_eq_cf p "source" sourceOk (required_isSome p "source" (by decide) hreq)
    have e4 := pp_eq_cf p "phase" phaseOk (required_isSome p "phase" (by decide) hreq)
    have e5 := pp_eq_cf p "repository" nullableStrOk
      (required_isSome p "repository" (by decide) hreq)
    have e6 := pp_eq_cf p "tool" nullableStrOk (required_isSome p "tool" (by decide) hreq)
    have e7 := pp_eq_cf p "status" statusOk (required_isSome p "status" (by decide) hreq)
    have e8 := pp_eq_cf p "attempt" attemptOk (required_isSome p "attempt" (by decide) hreq)
    have e9 := pp_eq_cf p "duration_ms" durationOk
      (required_isSome p "duration_ms" (by decide) hreq)
    have e10 := pp_eq_cf p "details" detailsOk (required_isSome p "details" (by decide) hreq)
    have ephase : claimFieldOk p "phase" phaseOk = claimFieldOk p "phase" phasePatternOk :=
      cf_congr p "phase" _ _ phaseOk_eq_pattern
    refine ⟨⟨⟨⟨⟨⟨⟨⟨⟨⟨⟨hreq, hadd⟩, ?_⟩, ?_⟩, ?_⟩, ?_⟩, ?_⟩, ?_⟩, ?_⟩, ?_⟩, ?_⟩, ?_⟩
    · rw [← e1]; exact hver
    · rw [← e3]; exact hsrc
    · rw [← ephase, ← e4]; exact hph
    · rw [← e7]; exact hst
    · rw [← e8]; exact hatt
    · rw [← e9]; exact hdur
    · rw [← e2]; exact hts
    · rw [← e5]; exact hrepo
    · rw [← e6]; exact htool
    · rw [← e10]; exact hdet
  · intro h
    simp only [Bool.and_eq_true] at h
    obtain ⟨⟨⟨⟨⟨⟨⟨⟨⟨⟨⟨hreq, hadd⟩, hver⟩, hsrc⟩, hph⟩, hst⟩, hatt⟩, hdur⟩, hts⟩, hrepo⟩,
      htool⟩, hdet⟩ := h
    simp only [Bool.and_eq_true]
    have e1 := pp_eq_cf p "version" versionOk (required_isSome p "version" (by decide) hreq)
    have e2 := pp_eq_cf p "timestamp" timestampOk (required_isSome p "timestamp" (by decide) hreq)
    have e3 := pp_eq_cf p "source" sourceOk (required_isSome p "source" (by decide) hreq)
    have e4 := pp_eq_cf p "phase" phaseOk (required_isSome p "phase" (by decide) hreq)
    have e5 := pp_eq_cf p "repository" nullableStrOk
      (required_isSome p "repository" (by decide) hreq)
    have e6 := pp_eq_cf p "tool" nullableStrOk (required_isSome p "tool" (by decide) hreq)
    have e7 := pp_eq_cf p "status" statusOk (required_isSome p "status" (by decide) hreq)
    have e8 := pp_eq_cf p "attempt" attemptOk (required_isSome p "attempt" (by decide) hreq)
    have e9 := pp_eq_cf p "duration_ms" durationOk
      (required_isSome p "duration_ms" (by decide) hreq)
    have e10 := pp_eq_cf p "details" detailsOk (required_isSome p "details" (by decide) hreq)
    have ephase : claimFieldOk p "phase" phaseOk = claimFieldOk p "phase" phasePatternOk :=
      cf_congr p "phase" _ _ phaseOk_eq_pattern
    refine ⟨⟨⟨⟨⟨⟨⟨⟨⟨⟨⟨hreq, hadd⟩, ?_⟩, ?_⟩, ?_⟩, ?_⟩, ?_⟩, ?_⟩, ?_⟩, ?_⟩, ?_⟩, ?_⟩
    · rw [e1]; exact hver
    · rw [e2]; exact hts
    · rw [e3]; exact hsrc
    · rw [e4, ephase]; exact hph
    · rw [e5]; exact hrepo
    · rw [e6]; exact htool
    · rw [e7]; exact hst
    · rw [e8]; exact hatt
    · rw [e9]; exact hdur
    · rw [e10]; exact hdet

theorem validate_ok_iff (q : List (String × JV)) :
    validate_event q = Except.ok () ↔ schemaValidate q = true := by
  unfold validate_event
  cases hq : schemaValidate q <;> simp

theorem coerce_event_ok (q ev : List (String × JV)) (h : coerce_event q = Except.ok ev) :
    ev = q ∧ validate_event q = Except.ok () := by
  unfold coerce_event at h
  split at h
  · rename_i u heq
    cases u
    cases h
    exact ⟨rfl, heq⟩
  · cases h

end Telemetry

/-- C7 counterexample: a payload meeting every condition claim C7 lists
(all ten fields present, no extras, version/source/status/phase/attempt/
duration_ms conforming) but carrying an integer timestamp is still
rejected: `validate_event` raises although the claim's enumeration holds,
so the stated "if and only if" fails. -/
theorem C7_validate_counterexample :
    Telemetry.claimConditions Telemetry.cexPayload = true
    ∧ Telemetry.validate_event Telemetry.cexPayload
        = Except.error "Telemetry payload invalid" := by
  constructor
  · decide
  · rfl

/-- C7 (amended: the schema additionally requires timestamp to be a
string, repository and tool each a string or null, and details an
object): `validate_event` returns normally exactly on payloads satisfying
the amended enumeration, and `make_event`/`dumps`/`loads` only ever
produce or accept events that pass this validation — `make_event` and
`loads` return only validated events, and `dumps` serializes an event
only after it validates. -/
theorem C7_validate_event_schema (p : List (String × JV)) :
    (Telemetry.validate_event p = Except.ok () ↔ Telemetry.amendedConditions p = true)
    ∧ (∀ source phase status repository tool attempt duration details timestamp ev,
        Telemetry.make_event source phase status repository tool attempt duration
          details timestamp = Except.ok ev → Telemetry.amendedConditions ev = true)
    ∧ (∀ ev out, Telemetry.dumps ev = Except.ok out →
        Telemetry.amendedConditions ev = true
        ∧ out = jdumpVal true "," ":" (JV.obj ev))
    ∧ (∀ raw ev, Telemetry.loads raw = Except.ok ev →
        Telemetry.amendedConditions ev = true) := by
  refine ⟨(Telemetry.validate_ok_iff p).trans (Telemetry.schemaValidate_iff_amended p),
    ?_, ?_, ?_⟩
  · intro source phase status repository tool attempt duration details timestamp ev h
    obtain ⟨hev, hok⟩ := Telemetry.coerce_event_ok _ ev h
    subst hev
    exact (Telemetry.schemaValidate_iff_amended _).mp ((Telemetry.validate_ok_iff _).mp hok)
  · intro ev out h
    unfold Telemetry.dumps at h
    split at h
    · rename_i validated heq
      obtain ⟨hval, hok⟩ := Telemetry.coerce_event_ok ev validated heq
      subst hval
      refine ⟨(Telemetry.schemaValidate_iff_amended _).mp
        ((Telemetry.validate_ok_iff _).mp hok), ?_⟩
      cases h
      rfl
    · cases h
  · intro raw ev h
    cases raw with
    | obj fields =>
      obtain ⟨hev, hok⟩ := Telemetry.coerce_event_ok fields ev h
      subst hev
      exact (Telemetry.schemaValidate_iff_amended _).mp ((Telemetry.validate_ok_iff _).mp hok)
    | null => cases h
    | bool b => cases h
    | int n => cases h
    | str s => cases h
    | arr items => cases h

namespace Ledger

/-! Model of `ledger.py`.  The append-only JSONL file is its list of
lines; `payload` values are JSON objects (`JV`). -/

/-- LedgerEvent models the frozen event dataclass. -/
structure LedgerEvent where
  event_type : String
  payload : List (String × JV)
  emitted_at : String

/-- LedgerEvent.to_dict models `to_dict` (keys in the literal's order). -/
def LedgerEvent.to_dict (e : LedgerEvent) : List (String × JV) :=
  [("event_type", JV.str e.event_type), ("payload", JV.obj e.payload),
   ("emitted_at", JV.str e.emitted_at)]

/-- dumpsSorted is `json.dumps(entry, sort_keys=True, separators=(",", ":"))`. -/
def dumpsSorted (v : JV) : String := jdumpVal true "," ":" v

/-- dumpsDefault is `json.dumps(obj)` with default separators and
insertion order. -/
def dumpsDefault (v : JV) : String := jdumpVal false ", " ": " v

/-- LedgerWriter.append models `append` acting on the file's lines:
serialize the entry compactly with sorted keys, take the SHA-256 hex
digest of its UTF-8 bytes, and append one line serializing the entry
extended with the "sha256" member. -/
def LedgerWriter.append (fileLines : List String) (event : LedgerEvent) :
    String × List String :=
  let entry := event.to_dict
  let serialized := dumpsSorted (JV.obj entry)
  let digest := Hash.sha256Hex (Hash.utf8Bytes serialized)
  let line := dumpsDefault (JV.obj (entry ++ [("sha256", JV.str digest)]))
  (digest, fileLines ++ [line])

end Ledger

/-- C8: `LedgerWriter.append` returns the hex SHA-256 digest (64 lowercase
hex characters) of the compact key-sorted JSON serialization of the
event's dict form without the checksum field, appends exactly one line —
the dict extended with a "sha256" member equal to that digest — and
leaves every previously written line unchanged. -/
theorem C8_ledger_append (fileLines : List String) (event : Ledger.LedgerEvent) :
    (Ledger.LedgerWriter.append fileLines event).1
      = Hash.sha256Hex (Hash.utf8Bytes (Ledger.dumpsSorted (JV.obj event.to_dict)))
    ∧ ((Ledger.LedgerWriter.append fileLines event).1).data.length = 64
    ∧ (∀ c ∈ ((Ledger.LedgerWriter.append fileLines event).1).data,
        Hash.isHexDigitChar c = true)
    ∧ (Ledger.LedgerWriter.append fileLines event).2
      = fileLines ++ [Ledger.dumpsDefault (JV.obj (event.to_dict
          ++ [("sha256", JV.str (Ledger.LedgerWriter.append fileLines event).1)]))]
    ∧ (Ledger.LedgerWriter.append fileLines event).2.length = fileLines.length + 1
    ∧ (Ledger.LedgerWriter.append fileLines event).2.take fileLines.length = fileLines := by
  refine ⟨rfl, Hash.sha256Hex_length _, fun c hc => Hash.sha256Hex_all_hex _ c hc, rfl, ?_, ?_⟩
  · show (fileLines ++ [_]).length = fileLines.length + 1
    simp
  · show (fileLines ++ [_]).take fileLines.length = fileLines
    simp
